import Mathlib

/-!
# Physics: 2D vectors, bodies and collision tests

A shallow embedding of `src/Physics.cpp`.

* Real arithmetic. The C++ `float` is modelled by a linearly ordered field `α` with exact
  arithmetic (`ℚ` for evaluation on concrete inputs, `ℝ` for the geometric statements).
  The statements about real arithmetic, and those that only use the order, are about this
  embedding.
* Machine arithmetic. The collision tests and `Wrap` are embedded a second time over an
  arbitrary arithmetic `FloatArith F` (the definitions `Machine.*`); at `FloatArith.exact`
  they are the definitions of the first embedding, and at `Binary32.arith` they are
  evaluated with the rounding of IEEE 754 binary32, the `float` of the source.
* `sqrtf` of `<cmath>` is not part of the repository: every function that calls it takes it
  as the parameter `sqrtf : α → α`; over `ℝ` it is instantiated with `Real.sqrt`.
  `powf (v, 2)` is the square `v ^ 2`.
* A `Body*` is an address (`Nat`) into a `Memory`, so that the pointer comparison
  `other == this` of `Move` is the comparison of addresses.
* The static members of `Body` are the record `Statics`.
-/

namespace Physics

/-! ## pVector -/

/-- Class `pVector`: a pair of `float` coordinates. -/
@[ext]
structure pVector (α : Type) where
  x : α
  y : α
deriving DecidableEq, Repr

/-- Enum `BodyType`. -/
inductive BodyType where
  | Box
  | Circle
  | None
deriving DecidableEq, Repr

section Defs

variable {α : Type} [LinearOrderedField α]

/-- Constructor `pVector()`: the default values `(0, 0)`. -/
def pVector.zero : pVector α := ⟨0, 0⟩

/-- Operator `+`: `pVector(x + other.x, y + other.y)`. -/
def pVector.add (v other : pVector α) : pVector α := ⟨v.x + other.x, v.y + other.y⟩

/-- Operator `-`: `pVector(x - other.x, y - other.y)`. -/
def pVector.sub (v other : pVector α) : pVector α := ⟨v.x - other.x, v.y - other.y⟩

/-- Operator `* (float value)`: `pVector(x * value, y * value)`. -/
def pVector.scale (v : pVector α) (value : α) : pVector α := ⟨v.x * value, v.y * value⟩

/-- Operator `* (pVector const &other)`: `pVector(x * other.x, y * other.y)`. -/
def pVector.mul (v other : pVector α) : pVector α := ⟨v.x * other.x, v.y * other.y⟩

instance : Add (pVector α) := ⟨pVector.add⟩

instance : Sub (pVector α) := ⟨pVector.sub⟩

instance : HMul (pVector α) α (pVector α) := ⟨pVector.scale⟩

instance : Mul (pVector α) := ⟨pVector.mul⟩

/-- Method `Magnitude`: `sqrtf(powf(x, 2) + powf(y, 2))`. -/
def pVector.Magnitude (sqrtf : α → α) (v : pVector α) : α :=
  sqrtf (v.x ^ 2 + v.y ^ 2)

/-- Method `SquaredMagnitude`: `powf(x, 2) + powf(y, 2)`. -/
def pVector.SquaredMagnitude (v : pVector α) : α :=
  v.x ^ 2 + v.y ^ 2

/-- Method `Normalize` (in place): the value of `*this` after the call. -/
def pVector.Normalize (sqrtf : α → α) (v : pVector α) : pVector α :=
  let mag := v.Magnitude sqrtf
  if mag = 0 then v
  else
    let v1 : pVector α := ⟨v.x / mag, v.y⟩
    ⟨v1.x, v1.y / mag⟩

/-- Method `Normalized`: a new vector, `pVector()` when the magnitude is zero. -/
def pVector.Normalized (sqrtf : α → α) (v : pVector α) : pVector α :=
  let mag := v.Magnitude sqrtf
  if mag = 0 then pVector.zero
  else ⟨v.x / mag, v.y / mag⟩

/-- Function `Distance`: `sqrtf(powf(p1.x - p2.x, 2) + powf(p1.y - p2.y, 2))`. -/
def Distance (sqrtf : α → α) (p1 p2 : pVector α) : α :=
  sqrtf ((p1.x - p2.x) ^ 2 + (p1.y - p2.y) ^ 2)

/-- Function `SquaredDistance`: `powf(p1.x - p2.x, 2) + powf(p1.y - p2.y, 2)`. -/
def SquaredDistance (p1 p2 : pVector α) : α :=
  (p1.x - p2.x) ^ 2 + (p1.y - p2.y) ^ 2

/-- Function `Clamp`. -/
def Clamp (val min max : α) : α :=
  if val < min then min
  else if val > max then max
  else val

/-- Function `Dot`: `(v1.x * v2.x) + (v1.y * v2.y)`. -/
def Dot (v1 v2 : pVector α) : α :=
  (v1.x * v2.x) + (v1.y * v2.y)

/-- Function `NearestPointOnFiniteLine` (`end_` is the parameter `end`). -/
def NearestPointOnFiniteLine (sqrtf : α → α) (start end_ pnt : pVector α) : pVector α :=
  let line := end_ - start
  let len := line.Magnitude sqrtf
  let line := line.Normalize sqrtf
  let v := pnt - start
  let d := Dot v line
  let d := Clamp d 0 len
  start + line * d

/-! ## Body -/

/-- Class `Body`: the non-static data members. -/
structure Body (α : Type) where
  type : BodyType
  pos : pVector α
  radius : α
  size : pVector α
  velocity : pVector α
deriving DecidableEq, Repr

/-- The static data members of `Body`. -/
structure Statics where
  SCREEN_WIDTH : Int
  SCREEN_HEIGHT : Int
  align_collisions : Bool
deriving DecidableEq, Repr

/-- Static method `Body::Initialize`. -/
def Body.Initialize (screenWidth screenHeight : Int) : Statics :=
  { SCREEN_WIDTH := screenWidth, SCREEN_HEIGHT := screenHeight, align_collisions := false }

/-- Constructor `Body(pVector Pos, pVector Size)`. The member `radius` is not written by
this constructor: its indeterminate value is the argument `radius`. -/
def Body.newBox (Pos Size : pVector α) (radius : α) : Body α :=
  { type := BodyType.Box, pos := Pos, radius := radius, size := Size,
    velocity := pVector.zero }

/-- Constructor `Body(pVector Pos, float Radius)`. -/
def Body.newCircle (Pos : pVector α) (Radius : α) : Body α :=
  { type := BodyType.Circle, pos := Pos, radius := Radius,
    size := ⟨Radius * 2, Radius * 2⟩, velocity := pVector.zero }

/-- Method `BoxCollidesBox(Body* other)`. -/
def Body.BoxCollidesBox (self other : Body α) : Bool :=
  decide (self.pos.y < other.pos.y + other.size.y)
    && decide (self.pos.y + self.size.y > other.pos.y)
    && decide (self.pos.x < other.pos.x + other.size.x)
    && decide (self.pos.x + self.size.x > other.pos.x)

/-- Method `BoxCollidesBox(pVector oPos, pVector oSize)`, the overload taking a position and
a size. -/
def Body.BoxCollidesBoxAt (self : Body α) (oPos oSize : pVector α) : Bool :=
  decide (self.pos.y < oPos.y + oSize.y)
    && decide (self.pos.y + self.size.y > oPos.y)
    && decide (self.pos.x < oPos.x + oSize.x)
    && decide (self.pos.x + self.size.x > oPos.x)

/-- Method `CircleCollidesCircle`. -/
def Body.CircleCollidesCircle (sqrtf : α → α) (self other : Body α) : Bool :=
  decide (Distance sqrtf self.pos other.pos < self.radius + other.radius)

/-- Method `CircleCollidesBox`: `self` is the box, the argument is the circle. -/
def Body.CircleCollidesBox (self circle : Body α) : Bool :=
  if !self.BoxCollidesBoxAt (circle.pos - ⟨circle.radius, circle.radius⟩) circle.size then
    false
  else if circle.pos.x > self.pos.x ∧ circle.pos.x < self.pos.x + self.size.x then
    true
  else if circle.pos.y > self.pos.y ∧ circle.pos.y < self.pos.y + self.size.y then
    true
  else
    let SquaredRadius := circle.radius * circle.radius
    if SquaredDistance self.pos circle.pos < SquaredRadius
        ∨ SquaredDistance (self.pos + ⟨self.size.x, 0⟩) circle.pos < SquaredRadius
        ∨ SquaredDistance (self.pos + ⟨0, self.size.y⟩) circle.pos < SquaredRadius
        ∨ SquaredDistance (self.pos + ⟨self.size.x, self.size.y⟩) circle.pos
            < SquaredRadius then
      true
    else
      false

/-- Method `CheckCollision`. -/
def Body.CheckCollision (sqrtf : α → α) (self other : Body α) : Bool :=
  if other.type = self.type then
    if self.type = BodyType.Circle then
      self.CircleCollidesCircle sqrtf other
    else
      self.BoxCollidesBox other
  else
    if self.type = BodyType.Box then
      self.CircleCollidesBox other
    else
      other.CircleCollidesBox self

/-- Method `Wrap`: the value of `*this` after the call. -/
def Body.Wrap (st : Statics) (self : Body α) : Body α :=
  let b1 : Body α :=
    if self.pos.x > (st.SCREEN_WIDTH : α) then
      { self with pos := ⟨0, self.pos.y⟩ }
    else if self.pos.x < 0 then
      { self with pos := ⟨(st.SCREEN_WIDTH : α), self.pos.y⟩ }
    else self
  if b1.pos.y > (st.SCREEN_HEIGHT : α) then
    { b1 with pos := ⟨b1.pos.x, 0⟩ }
  else if b1.pos.y < 0 then
    { b1 with pos := ⟨b1.pos.x, (st.SCREEN_HEIGHT : α)⟩ }
  else b1

/-! ## Bodies behind pointers -/

/-- The objects a `Body*` can point to, by address. -/
abbrev Memory (α : Type) := Nat → Body α

/-- The assignment `p->pos = v`. -/
def Memory.setPos (mem : Memory α) (p : Nat) (v : pVector α) : Memory α :=
  fun q => if q = p then { mem q with pos := v } else mem q

/-- The assignment `*p = b`. -/
def Memory.store (mem : Memory α) (p : Nat) (b : Body α) : Memory α :=
  fun q => if q = p then b else mem q

/-- The `for each` loop of `Move`, on the bodies still to visit. -/
def Body.MoveLoop (sqrtf : α → α) (self : Nat) (origin : pVector α) (mem : Memory α) :
    List Nat → Memory α
  | [] => mem
  | other :: rest =>
    if other = self then
      Body.MoveLoop sqrtf self origin mem rest
    else if (mem self).CheckCollision sqrtf (mem other) then
      mem.setPos self origin
    else
      Body.MoveLoop sqrtf self origin mem rest

/-- Method `Move` of the body at address `self`. -/
def Body.Move (sqrtf : α → α) (mem : Memory α) (self : Nat) (Motion : pVector α)
    (allBodies : List Nat) : Memory α :=
  let origin := (mem self).pos
  let mem1 := mem.setPos self ((mem self).pos + Motion)
  Body.MoveLoop sqrtf self origin mem1 allBodies

/-- The `for each` loop of `MoveAndAlign`, on the bodies still to visit. -/
def Body.MoveAndAlignLoop (sqrtf : α → α) (self : Nat) (origin : pVector α)
    (mem : Memory α) : List Nat → Memory α
  | [] => mem
  | other :: rest =>
    if other = self then
      Body.MoveAndAlignLoop sqrtf self origin mem rest
    else if (mem self).CheckCollision sqrtf (mem other) then
      mem.setPos self origin
    else
      Body.MoveAndAlignLoop sqrtf self origin mem rest

/-- Method `MoveAndAlign` of the body at address `self`. -/
def Body.MoveAndAlign (sqrtf : α → α) (mem : Memory α) (self : Nat) (Motion : pVector α)
    (allBodies : List Nat) : Memory α :=
  let origin := (mem self).pos
  let mem1 := mem.setPos self ((mem self).pos + Motion)
  Body.MoveAndAlignLoop sqrtf self origin mem1 allBodies

/-- Method `AutoMove` of the body at address `self`. -/
def Body.AutoMove (sqrtf : α → α) (st : Statics) (mem : Memory α) (self : Nat)
    (allBodies : List Nat) : Memory α :=
  if st.align_collisions then
    Body.MoveAndAlign sqrtf mem self (mem self).velocity allBodies
  else
    Body.Move sqrtf mem self (mem self).velocity allBodies

/-- Method `AutoMoveAndWrap` of the body at address `self`. -/
def Body.AutoMoveAndWrap (sqrtf : α → α) (st : Statics) (mem : Memory α) (self : Nat)
    (allBodies : List Nat) : Memory α :=
  let mem1 :=
    if st.align_collisions then
      Body.MoveAndAlign sqrtf mem self (mem self).velocity allBodies
    else
      Body.Move sqrtf mem self (mem self).velocity allBodies
  mem1.store self (Body.Wrap st (mem1 self))

end Defs

/-! ## Definitions on the side of the specification -/

/-- Spec: the open intervals `(lo1, lo1 + len1)` and `(lo2, lo2 + len2)` overlap, that is,
they have a common point. -/
def Spec.OpenIntervalsOverlap {α : Type} [LinearOrderedField α] (lo1 len1 lo2 len2 : α) :
    Prop :=
  (Set.Ioo lo1 (lo1 + len1) ∩ Set.Ioo lo2 (lo2 + len2)).Nonempty

/-- Spec: the open x-intervals `(pos.x, pos.x + size.x)` of two bodies overlap and their
open y-intervals overlap. -/
def Spec.BoxesOverlap {α : Type} [LinearOrderedField α] (a b : Body α) : Prop :=
  Spec.OpenIntervalsOverlap a.pos.x a.size.x b.pos.x b.size.x
    ∧ Spec.OpenIntervalsOverlap a.pos.y a.size.y b.pos.y b.size.y

/-- Spec: the closed rectangle `[pos.x, pos.x + size.x] × [pos.y, pos.y + size.y]` of a
box. -/
def Spec.InRect {α : Type} [LinearOrderedField α] (box : Body α) (q : pVector α) : Prop :=
  (box.pos.x ≤ q.x ∧ q.x ≤ box.pos.x + box.size.x)
    ∧ (box.pos.y ≤ q.y ∧ q.y ≤ box.pos.y + box.size.y)

/-- Spec: the point of the closed rectangle of a box that is nearest to `p`, each coordinate
of `p` being brought into the span of the box. -/
def Spec.NearestPointOfRect {α : Type} [LinearOrderedField α] (box : Body α)
    (p : pVector α) : pVector α :=
  ⟨max box.pos.x (min p.x (box.pos.x + box.size.x)),
    max box.pos.y (min p.y (box.pos.y + box.size.y))⟩

/-! ## Concrete scenes used to evaluate the definitions -/

/-- Two boxes of size `10 × 10`: the body at address `0` at `(0, 0)`, every other address
holds a box at `(15, 0)`. -/
def sceneTwoBoxes : Memory ℚ := fun p =>
  if p = 0 then Body.newBox ⟨0, 0⟩ ⟨10, 10⟩ 0 else Body.newBox ⟨15, 0⟩ ⟨10, 10⟩ 0

/-- The scene of a wrap onto another body, for a `100 × 100` screen: the body at address `0`
is a box at `(99, 50)` of size `(10, 10)` with velocity `(2, 0)`, every other address holds
a box at `(0, 50)` of size `(10, 10)`. -/
def sceneWrapOntoBox : Memory ℚ := fun p =>
  if p = 0 then { Body.newBox ⟨99, 50⟩ ⟨10, 10⟩ 0 with velocity := ⟨2, 0⟩ }
  else Body.newBox ⟨0, 50⟩ ⟨10, 10⟩ 0

/-! ## The machine arithmetic

The same source functions, with every operation on `float` taken from a `FloatArith`. -/

/-- The operations of the C++ `float` used by the collision tests and by `Wrap`: `+`, `-`, `*`,
`powf (v, 2)`, `sqrtf`, the conversion of an `int`, and the comparison `<`. -/
structure FloatArith (F : Type) where
  add : F → F → F
  sub : F → F → F
  mul : F → F → F
  powf2 : F → F
  sqrtf : F → F
  ofInt : Int → F
  lt : F → F → Bool

/-- Exact arithmetic: the operations of an ordered field, with a given `sqrtf`. -/
def FloatArith.exact {α : Type} [LinearOrderedField α] (sqrtf : α → α) : FloatArith α where
  add := fun a b => a + b
  sub := fun a b => a - b
  mul := fun a b => a * b
  powf2 := fun a => a ^ 2
  sqrtf := sqrtf
  ofInt := fun n => (n : α)
  lt := fun a b => decide (a < b)

section Machine

variable {F : Type}

/-- Operator `+` of `pVector`. -/
def Machine.add (A : FloatArith F) (v other : pVector F) : pVector F :=
  ⟨A.add v.x other.x, A.add v.y other.y⟩

/-- Operator `-` of `pVector`. -/
def Machine.sub (A : FloatArith F) (v other : pVector F) : pVector F :=
  ⟨A.sub v.x other.x, A.sub v.y other.y⟩

/-- Function `Distance`. -/
def Machine.Distance (A : FloatArith F) (p1 p2 : pVector F) : F :=
  A.sqrtf (A.add (A.powf2 (A.sub p1.x p2.x)) (A.powf2 (A.sub p1.y p2.y)))

/-- Function `SquaredDistance`. -/
def Machine.SquaredDistance (A : FloatArith F) (p1 p2 : pVector F) : F :=
  A.add (A.powf2 (A.sub p1.x p2.x)) (A.powf2 (A.sub p1.y p2.y))

/-- Constructor `Body(pVector Pos, pVector Size)`; `radius` is the indeterminate value of the
member the constructor does not write. -/
def Machine.newBox (A : FloatArith F) (Pos Size : pVector F) (radius : F) : Body F :=
  { type := BodyType.Box, pos := Pos, radius := radius, size := Size,
    velocity := ⟨A.ofInt 0, A.ofInt 0⟩ }

/-- Constructor `Body(pVector Pos, float Radius)`. -/
def Machine.newCircle (A : FloatArith F) (Pos : pVector F) (Radius : F) : Body F :=
  { type := BodyType.Circle, pos := Pos, radius := Radius,
    size := ⟨A.mul Radius (A.ofInt 2), A.mul Radius (A.ofInt 2)⟩,
    velocity := ⟨A.ofInt 0, A.ofInt 0⟩ }

/-- Method `BoxCollidesBox(Body* other)`. -/
def Machine.BoxCollidesBox (A : FloatArith F) (self other : Body F) : Bool :=
  A.lt self.pos.y (A.add other.pos.y other.size.y)
    && A.lt other.pos.y (A.add self.pos.y self.size.y)
    && A.lt self.pos.x (A.add other.pos.x other.size.x)
    && A.lt other.pos.x (A.add self.pos.x self.size.x)

/-- Method `BoxCollidesBox(pVector oPos, pVector oSize)`. -/
def Machine.BoxCollidesBoxAt (A : FloatArith F) (self : Body F) (oPos oSize : pVector F) :
    Bool :=
  A.lt self.pos.y (A.add oPos.y oSize.y)
    && A.lt oPos.y (A.add self.pos.y self.size.y)
    && A.lt self.pos.x (A.add oPos.x oSize.x)
    && A.lt oPos.x (A.add self.pos.x self.size.x)

/-- Method `CircleCollidesCircle`. -/
def Machine.CircleCollidesCircle (A : FloatArith F) (self other : Body F) : Bool :=
  A.lt (Machine.Distance A self.pos other.pos) (A.add self.radius other.radius)

/-- Method `CircleCollidesBox`: `self` is the box, the argument is the circle. -/
def Machine.CircleCollidesBox (A : FloatArith F) (self circle : Body F) : Bool :=
  if !Machine.BoxCollidesBoxAt A self
      (Machine.sub A circle.pos ⟨circle.radius, circle.radius⟩) circle.size then
    false
  else if A.lt self.pos.x circle.pos.x
      && A.lt circle.pos.x (A.add self.pos.x self.size.x) then
    true
  else if A.lt self.pos.y circle.pos.y
      && A.lt circle.pos.y (A.add self.pos.y self.size.y) then
    true
  else
    let SquaredRadius := A.mul circle.radius circle.radius
    if A.lt (Machine.SquaredDistance A self.pos circle.pos) SquaredRadius
        || A.lt (Machine.SquaredDistance A
              (Machine.add A self.pos ⟨self.size.x, A.ofInt 0⟩) circle.pos) SquaredRadius
        || A.lt (Machine.SquaredDistance A
              (Machine.add A self.pos ⟨A.ofInt 0, self.size.y⟩) circle.pos) SquaredRadius
        || A.lt (Machine.SquaredDistance A
              (Machine.add A self.pos ⟨self.size.x, self.size.y⟩) circle.pos)
            SquaredRadius then
      true
    else
      false

/-- Method `Wrap`: the value of `*this` after the call. -/
def Machine.Wrap (A : FloatArith F) (st : Statics) (self : Body F) : Body F :=
  let b1 : Body F :=
    if A.lt (A.ofInt st.SCREEN_WIDTH) self.pos.x then
      { self with pos := ⟨A.ofInt 0, self.pos.y⟩ }
    else if A.lt self.pos.x (A.ofInt 0) then
      { self with pos := ⟨A.ofInt st.SCREEN_WIDTH, self.pos.y⟩ }
    else self
  if A.lt (A.ofInt st.SCREEN_HEIGHT) b1.pos.y then
    { b1 with pos := ⟨b1.pos.x, A.ofInt 0⟩ }
  else if A.lt b1.pos.y (A.ofInt 0) then
    { b1 with pos := ⟨b1.pos.x, A.ofInt st.SCREEN_HEIGHT⟩ }
  else b1

end Machine

/-! ## binary32

IEEE 754 binary32 with rounding to nearest, ties to even. Finite values are dyadic numbers;
a result that is not a finite number is `none`, and stays `none`. -/

/-- The dyadic number `m * 2 ^ e`. -/
structure Dyadic where
  m : Int
  e : Int
deriving DecidableEq, Repr

/-- A value of the C++ `float` (IEEE 754 binary32): a finite number, or `none` for a result
that is not a finite number (an overflow, or the square root of a negative number). -/
abbrev F32 := Option Dyadic

/-- The number of binary digits of `n`, with `fuel` at least that number. -/
def Binary32.bitLengthAux : Nat → Nat → Nat
  | 0, _ => 0
  | fuel + 1, n => if n = 0 then 0 else Binary32.bitLengthAux fuel (n / 2) + 1

/-- The number of binary digits of `n`. -/
def Binary32.bitLength (n : Nat) : Nat := Binary32.bitLengthAux n n

/-- Rounding of `m * 2 ^ e` to binary32, to nearest, ties to even: 24 significant binary
digits, least exponent `-149` (gradual underflow), and `none` from `2 ^ 128` on. -/
def Binary32.round (m e : Int) : F32 :=
  let n := m.natAbs
  if n = 0 then some ⟨0, 0⟩
  else
    let bits : Int := (Binary32.bitLength n : Int)
    let t : Int := if e + bits - 24 ≤ -149 then -149 else e + bits - 24
    if t ≤ e then
      if e + bits > 128 then none else some ⟨m, e⟩
    else
      let s : Nat := (t - e).toNat
      let q : Nat := n / 2 ^ s
      let r : Nat := n % 2 ^ s
      let half : Nat := 2 ^ (s - 1)
      let q1 : Nat := if half < r ∨ (r = half ∧ q % 2 = 1) then q + 1 else q
      if (Binary32.bitLength q1 : Int) + t > 128 then none
      else some ⟨if m < 0 then -(q1 : Int) else (q1 : Int), t⟩

/-- The rational number a finite binary32 value stands for (`0` for `none`). -/
def Binary32.toRat (a : F32) : ℚ :=
  match a with
  | some x => (x.m : ℚ) * 2 ^ x.e
  | none => 0

/-- Addition of binary32: the rounded exact sum. -/
def Binary32.add (a b : F32) : F32 :=
  match a, b with
  | some x, some y =>
    let e := if x.e ≤ y.e then x.e else y.e
    Binary32.round (x.m * 2 ^ (x.e - e).toNat + y.m * 2 ^ (y.e - e).toNat) e
  | _, _ => none

/-- Subtraction of binary32: the rounded exact difference. -/
def Binary32.sub (a b : F32) : F32 :=
  match a, b with
  | some x, some y =>
    let e := if x.e ≤ y.e then x.e else y.e
    Binary32.round (x.m * 2 ^ (x.e - e).toNat - y.m * 2 ^ (y.e - e).toNat) e
  | _, _ => none

/-- Multiplication of binary32: the rounded exact product. -/
def Binary32.mul (a b : F32) : F32 :=
  match a, b with
  | some x, some y => Binary32.round (x.m * y.m) (x.e + y.e)
  | _, _ => none

/-- Comparison `<` of binary32; false when an operand is not a finite number. -/
def Binary32.lt (a b : F32) : Bool :=
  match a, b with
  | some x, some y =>
    let e := if x.e ≤ y.e then x.e else y.e
    decide (x.m * 2 ^ (x.e - e).toNat < y.m * 2 ^ (y.e - e).toNat)
  | _, _ => false

/-- The integer square root of `n`, found digit by digit from the binary digit `k - 1`
down. -/
def Binary32.isqrtGo (n : Nat) : Nat → Nat → Nat
  | 0, r => r
  | k + 1, r =>
    Binary32.isqrtGo n k (if (r + 2 ^ k) * (r + 2 ^ k) ≤ n then r + 2 ^ k else r)

/-- The integer square root of `n`. -/
def Binary32.isqrt (n : Nat) : Nat :=
  Binary32.isqrtGo n (Binary32.bitLength n / 2 + 1) 0

/-- Function `sqrtf` of binary32: the rounded exact square root, computed from at least 26
digits of the root and a sticky digit. -/
def Binary32.sqrtf (a : F32) : F32 :=
  match a with
  | none => none
  | some x =>
    if x.m < 0 then none
    else if x.m = 0 then some ⟨0, 0⟩
    else
      let k0 : Int := 52 - (Binary32.bitLength x.m.natAbs : Int)
      let k1 : Int := if k0 < 0 then 0 else k0
      let k : Int := if (x.e - k1) % 2 = 0 then k1 else k1 + 1
      let M : Nat := x.m.natAbs * 2 ^ k.toNat
      let s : Nat := Binary32.isqrt M
      let h : Int := (x.e - k) / 2
      if s * s = M then Binary32.round s h
      else Binary32.round (2 * s + 1) (h - 1)

/-- The arithmetic of binary32. `powf (v, 2)` is the rounded exact square. -/
def Binary32.arith : FloatArith F32 where
  add := Binary32.add
  sub := Binary32.sub
  mul := Binary32.mul
  powf2 := fun a => Binary32.mul a a
  sqrtf := Binary32.sqrtf
  ofInt := fun n => Binary32.round n 0
  lt := Binary32.lt

/-! ## Bodies of binary32 used to evaluate the definitions -/

/-- The circle of radius `5` at `(0, 0)`. -/
def Binary32.sceneCircleA : Body F32 :=
  Machine.newCircle Binary32.arith ⟨Binary32.round 0 0, Binary32.round 0 0⟩ (Binary32.round 5 0)

/-- The circle of radius `2 ^ (-25)` at `(3, 4)`. -/
def Binary32.sceneCircleB : Body F32 :=
  Machine.newCircle Binary32.arith ⟨Binary32.round 3 0, Binary32.round 4 0⟩
    (Binary32.round 1 (-25))

/-- The box at `(0, 0)` of size `(10, 10)`. -/
def Binary32.sceneBox : Body F32 :=
  Machine.newBox Binary32.arith ⟨Binary32.round 0 0, Binary32.round 0 0⟩
    ⟨Binary32.round 10 0, Binary32.round 10 0⟩ (Binary32.round 0 0)

/-- The circle of radius `2 ^ (-22)` at `(10, 10)`. -/
def Binary32.sceneTinyCircle : Body F32 :=
  Machine.newCircle Binary32.arith ⟨Binary32.round 10 0, Binary32.round 10 0⟩
    (Binary32.round 1 (-22))

/-- The box at `(2 ^ 25, 0)` of size `(3, 1)`. -/
def Binary32.sceneFarBox : Body F32 :=
  Machine.newBox Binary32.arith ⟨Binary32.round 33554432 0, Binary32.round 0 0⟩
    ⟨Binary32.round 3 0, Binary32.round 1 0⟩ (Binary32.round 0 0)

/-- The circle of radius `17 / 8` at `(2 ^ 25 + 4, -2)`. -/
def Binary32.sceneFarCircle : Body F32 :=
  Machine.newCircle Binary32.arith ⟨Binary32.round 33554436 0, Binary32.round (-2) 0⟩
    (Binary32.round 17 (-3))

/-- The box at `(-1, 2 ^ 25 + 4)` of size `(1, 1)`. -/
def Binary32.sceneWrapBody : Body F32 :=
  Machine.newBox Binary32.arith ⟨Binary32.round (-1) 0, Binary32.round 33554436 0⟩
    ⟨Binary32.round 1 0, Binary32.round 1 0⟩ (Binary32.round 0 0)

/-- The box at `(2 ^ 24, 0)` of size `(1, 1)`. -/
def Binary32.sceneUnitBox : Body F32 :=
  Machine.newBox Binary32.arith ⟨Binary32.round 16777216 0, Binary32.round 0 0⟩
    ⟨Binary32.round 1 0, Binary32.round 1 0⟩ (Binary32.round 0 0)

/-- The box at `(10, 10)` of size `(0, 0)`. -/
def Binary32.sceneZeroBox : Body F32 :=
  Machine.newBox Binary32.arith ⟨Binary32.round 10 0, Binary32.round 10 0⟩
    ⟨Binary32.round 0 0, Binary32.round 0 0⟩ (Binary32.round 0 0)

/-! ## Projections of the vector operators -/

section VectorLemmas

variable {α : Type} [LinearOrderedField α]

@[simp] theorem pVector.add_x (a b : pVector α) : (a + b).x = a.x + b.x := rfl

@[simp] theorem pVector.add_y (a b : pVector α) : (a + b).y = a.y + b.y := rfl

@[simp] theorem pVector.sub_x (a b : pVector α) : (a - b).x = a.x - b.x := rfl

@[simp] theorem pVector.sub_y (a b : pVector α) : (a - b).y = a.y - b.y := rfl

@[simp] theorem pVector.scale_x (a : pVector α) (c : α) : (a * c).x = a.x * c := rfl

@[simp] theorem pVector.scale_y (a : pVector α) (c : α) : (a * c).y = a.y * c := rfl

end VectorLemmas

/-! ## Memory and the scan of `Move` -/

section MemoryLemmas

variable {α : Type}

theorem Memory.setPos_same (mem : Memory α) (p : Nat) (v : pVector α) :
    mem.setPos p v p = { mem p with pos := v } := by
  simp [Memory.setPos]

theorem Memory.setPos_other (mem : Memory α) (p q : Nat) (v : pVector α) (h : q ≠ p) :
    mem.setPos p v q = mem q := by
  simp [Memory.setPos, h]

theorem Memory.setPos_setPos_orig (mem : Memory α) (p : Nat) (v : pVector α) :
    (mem.setPos p v).setPos p (mem p).pos = mem := by
  funext q
  by_cases h : q = p
  · subst h
    simp [Memory.setPos]
  · simp [Memory.setPos, h]

end MemoryLemmas

section MoveLemmas

variable {α : Type} [LinearOrderedField α]

/-- The scan rolls back as soon as some visited body other than `self` collides. -/
theorem Body.MoveLoop_collision (sqrtf : α → α) (self : Nat) (origin : pVector α)
    (mem : Memory α) (L : List Nat)
    (h : ∃ o ∈ L, o ≠ self ∧ (mem self).CheckCollision sqrtf (mem o) = true) :
    Body.MoveLoop sqrtf self origin mem L = mem.setPos self origin := by
  induction L with
  | nil => simp at h
  | cons a rest ih =>
    obtain ⟨o, ho, hne, hc⟩ := h
    by_cases ha : a = self
    · have ho2 : o ∈ rest := by
        rcases List.mem_cons.1 ho with h1 | h1
        · exact absurd (h1.trans ha) hne
        · exact h1
      simp only [Body.MoveLoop, ha, if_true]
      exact ih ⟨o, ho2, hne, hc⟩
    · by_cases hca : (mem self).CheckCollision sqrtf (mem a) = true
      · simp [Body.MoveLoop, ha, hca]
      · have ho2 : o ∈ rest := by
          rcases List.mem_cons.1 ho with h1 | h1
          · exact absurd (h1 ▸ hc) hca
          · exact h1
        simp only [Body.MoveLoop, ha, hca, if_false]
        exact ih ⟨o, ho2, hne, hc⟩

/-- The scan leaves the memory alone when no visited body other than `self` collides. -/
theorem Body.MoveLoop_no_collision (sqrtf : α → α) (self : Nat) (origin : pVector α)
    (mem : Memory α) (L : List Nat)
    (h : ∀ o ∈ L, o ≠ self → (mem self).CheckCollision sqrtf (mem o) = false) :
    Body.MoveLoop sqrtf self origin mem L = mem := by
  induction L with
  | nil => rfl
  | cons a rest ih =>
    have hrest : ∀ o ∈ rest, o ≠ self →
        (mem self).CheckCollision sqrtf (mem o) = false :=
      fun o ho => h o (List.mem_cons_of_mem a ho)
    by_cases ha : a = self
    · simp only [Body.MoveLoop, ha, if_true]
      exact ih hrest
    · have hca := h a (List.mem_cons_self a rest) ha
      simp only [Body.MoveLoop, ha, hca, if_false]
      simpa using ih hrest

/-- Occurrences of `self` in the list are skipped by the scan. -/
theorem Body.MoveLoop_filter (sqrtf : α → α) (self : Nat) (origin : pVector α)
    (mem : Memory α) (L : List Nat) :
    Body.MoveLoop sqrtf self origin mem L
      = Body.MoveLoop sqrtf self origin mem (L.filter (fun o => decide (o ≠ self))) := by
  induction L with
  | nil => rfl
  | cons a rest ih =>
    by_cases ha : a = self
    · simp [Body.MoveLoop, ha, ih]
    · by_cases hca : (mem self).CheckCollision sqrtf (mem a) = true
      · simp [Body.MoveLoop, ha, hca, List.filter]
      · simp [Body.MoveLoop, ha, hca, List.filter, ih]

end MoveLemmas

/-! ## Collision predicates -/

/-- Over the reals `Distance` is the distance of the Euclidean plane. -/
theorem Distance_eq_dist (p q : pVector ℝ) :
    Distance Real.sqrt p q
      = dist ((WithLp.equiv 2 (Fin 2 → ℝ)).symm ![p.x, p.y] : EuclideanSpace ℝ (Fin 2))
          ((WithLp.equiv 2 (Fin 2 → ℝ)).symm ![q.x, q.y]) := by
  rw [EuclideanSpace.dist_eq]
  simp [Fin.sum_univ_two, Distance, Real.dist_eq, sq_abs]

section CollisionLemmas

variable {α : Type} [LinearOrderedField α]

/-- Two open intervals have a common point exactly when each starts before the other ends
and both have positive length. -/
theorem Spec.OpenIntervalsOverlap_iff (lo1 len1 lo2 len2 : α) :
    Spec.OpenIntervalsOverlap lo1 len1 lo2 len2 ↔
      (lo1 < lo2 + len2 ∧ lo2 < lo1 + len1) ∧ 0 < len1 ∧ 0 < len2 := by
  unfold Spec.OpenIntervalsOverlap
  rw [Set.Ioo_inter_Ioo, Set.nonempty_Ioo]
  simp only [sup_lt_iff, lt_inf_iff, lt_add_iff_pos_right]
  tauto

theorem Body.BoxCollidesBox_eq_true_iff (a b : Body α) :
    a.BoxCollidesBox b = true ↔
      (a.pos.x < b.pos.x + b.size.x ∧ b.pos.x < a.pos.x + a.size.x)
        ∧ (a.pos.y < b.pos.y + b.size.y ∧ b.pos.y < a.pos.y + a.size.y) := by
  simp only [Body.BoxCollidesBox, Bool.and_eq_true, decide_eq_true_eq, gt_iff_lt]
  tauto

end CollisionLemmas

/-! ## The nearest point on a segment -/

/-- Clamping into `[0, L]` lands in `[0, L]`. -/
theorem Clamp_zero_mem (t L : ℝ) (hL : 0 ≤ L) : 0 ≤ Clamp t 0 L ∧ Clamp t 0 L ≤ L := by
  unfold Clamp
  split_ifs with h1 h2
  · exact ⟨le_refl _, hL⟩
  · exact ⟨hL, le_refl _⟩
  · exact ⟨not_lt.1 h1, not_lt.1 h2⟩

/-- The clamped projection minimises `τ ↦ τ ^ 2 - 2 * τ * t` over `[0, L]`. -/
theorem Clamp_minimises (t L τ : ℝ) (h0 : 0 ≤ τ) (hL : τ ≤ L) :
    (Clamp t 0 L) ^ 2 - 2 * (Clamp t 0 L) * t ≤ τ ^ 2 - 2 * τ * t := by
  unfold Clamp
  split_ifs with h1 h2
  · nlinarith [mul_nonneg h0 (le_of_lt (neg_pos.2 h1))]
  · nlinarith [mul_nonneg (sub_nonneg.2 hL) (sub_nonneg.2 (le_of_lt h2)),
      mul_nonneg (sub_nonneg.2 hL) (sub_nonneg.2 hL)]
  · nlinarith [sq_nonneg (τ - t)]

/-- A segment of length zero has equal end points. -/
theorem Magnitude_sub_eq_zero {a b : pVector ℝ}
    (h : (b - a).Magnitude Real.sqrt = 0) : b = a := by
  unfold pVector.Magnitude at h
  have h2 : (b - a).x ^ 2 + (b - a).y ^ 2 = 0 :=
    (Real.sqrt_eq_zero (add_nonneg (sq_nonneg _) (sq_nonneg _))).1 h
  simp only [pVector.sub_x, pVector.sub_y] at h2
  have hx : b.x - a.x = 0 := by nlinarith [sq_nonneg (b.x - a.x), sq_nonneg (b.y - a.y)]
  have hy : b.y - a.y = 0 := by nlinarith [sq_nonneg (b.x - a.x), sq_nonneg (b.y - a.y)]
  ext
  · linarith
  · linarith

theorem Magnitude_sq (v : pVector ℝ) :
    v.Magnitude Real.sqrt * v.Magnitude Real.sqrt = v.x ^ 2 + v.y ^ 2 :=
  Real.mul_self_sqrt (add_nonneg (sq_nonneg _) (sq_nonneg _))

theorem Magnitude_nonneg (v : pVector ℝ) : 0 ≤ v.Magnitude Real.sqrt :=
  Real.sqrt_nonneg _

/-- The value of `NearestPointOnFiniteLine` on a segment of length zero. -/
theorem NearestPointOnFiniteLine_degenerate (start end_ pnt : pVector ℝ)
    (h : (end_ - start).Magnitude Real.sqrt = 0) :
    NearestPointOnFiniteLine Real.sqrt start end_ pnt = start := by
  have he := Magnitude_sub_eq_zero h
  subst he
  unfold NearestPointOnFiniteLine pVector.Normalize
  simp only [h, if_true]
  ext <;> simp

/-- The value of `NearestPointOnFiniteLine` on a segment of positive length, by coordinates. -/
theorem NearestPointOnFiniteLine_coords (start end_ pnt : pVector ℝ)
    (h : (end_ - start).Magnitude Real.sqrt ≠ 0) :
    NearestPointOnFiniteLine Real.sqrt start end_ pnt
      = ⟨start.x + (end_.x - start.x) / (end_ - start).Magnitude Real.sqrt
            * Clamp (Dot (pnt - start) ((end_ - start).Normalized Real.sqrt)) 0
                ((end_ - start).Magnitude Real.sqrt),
          start.y + (end_.y - start.y) / (end_ - start).Magnitude Real.sqrt
            * Clamp (Dot (pnt - start) ((end_ - start).Normalized Real.sqrt)) 0
                ((end_ - start).Magnitude Real.sqrt)⟩ := by
  unfold NearestPointOnFiniteLine pVector.Normalize pVector.Normalized
  simp only [h, if_false]
  ext <;> simp

/-- The normalised direction of a segment of positive length has length one. -/
theorem unit_direction {lx ly L : ℝ} (hL : L ≠ 0) (hsq : L * L = lx ^ 2 + ly ^ 2) :
    (lx / L) ^ 2 + (ly / L) ^ 2 = 1 := by
  field_simp
  linarith

/-- The length of the segment from `(0, 0)` to `(10, 0)`. -/
theorem sqrt_hundred : Real.sqrt 100 = 10 := by
  rw [show (100 : ℝ) = 10 ^ 2 by norm_num]
  exact Real.sqrt_sq (by norm_num)

/-! ## Helper lemmas on the collision tests and on `Wrap` -/

section MoreLemmas

variable {α : Type} [LinearOrderedField α]

/-- The box test against a position and a size, as a proposition. -/
theorem Body.BoxCollidesBoxAt_eq_true_iff (a : Body α) (oPos oSize : pVector α) :
    a.BoxCollidesBoxAt oPos oSize = true ↔
      (a.pos.x < oPos.x + oSize.x ∧ oPos.x < a.pos.x + a.size.x)
        ∧ (a.pos.y < oPos.y + oSize.y ∧ oPos.y < a.pos.y + a.size.y) := by
  simp only [Body.BoxCollidesBoxAt, Bool.and_eq_true, decide_eq_true_eq, gt_iff_lt]
  tauto

/-- The circle-against-box test as a proposition. -/
theorem Body.CircleCollidesBox_eq_true_iff (box circle : Body α) :
    box.CircleCollidesBox circle = true ↔
      box.BoxCollidesBoxAt (circle.pos - ⟨circle.radius, circle.radius⟩) circle.size = true
        ∧ ((box.pos.x < circle.pos.x ∧ circle.pos.x < box.pos.x + box.size.x)
          ∨ (box.pos.y < circle.pos.y ∧ circle.pos.y < box.pos.y + box.size.y)
          ∨ SquaredDistance box.pos circle.pos < circle.radius * circle.radius
          ∨ SquaredDistance (box.pos + ⟨box.size.x, 0⟩) circle.pos
              < circle.radius * circle.radius
          ∨ SquaredDistance (box.pos + ⟨0, box.size.y⟩) circle.pos
              < circle.radius * circle.radius
          ∨ SquaredDistance (box.pos + ⟨box.size.x, box.size.y⟩) circle.pos
              < circle.radius * circle.radius) := by
  unfold Body.CircleCollidesBox
  simp only [gt_iff_lt]
  cases hb : box.BoxCollidesBoxAt (circle.pos - ⟨circle.radius, circle.radius⟩) circle.size
  · simp only [Bool.not_false, if_true]
    exact ⟨fun h => absurd h (by decide), fun h => absurd h.1 (by decide)⟩
  · simp only [Bool.not_true, Bool.false_eq_true, if_false, true_and]
    split_ifs with h1 h2 h3
    · exact ⟨fun _ => Or.inl h1, fun _ => rfl⟩
    · exact ⟨fun _ => Or.inr (Or.inl h2), fun _ => rfl⟩
    · exact ⟨fun _ => Or.inr (Or.inr h3), fun _ => rfl⟩
    · refine ⟨fun h => absurd h (by decide), fun h => ?_⟩
      rcases h with h | h | h
      · exact absurd h h1
      · exact absurd h h2
      · exact absurd h h3

/-- The order of the two points does not matter to `Distance`. -/
theorem Distance_comm (sqrtf : α → α) (p q : pVector α) :
    Distance sqrtf p q = Distance sqrtf q p := by
  unfold Distance
  congr 1
  ring

/-- On one axis: where the nearest point of `[b, b + w]` to `c` is. -/
theorem nearest1_cases (b w c : α) (hw : 0 ≤ w) :
    (c ≤ b ∧ max b (min c (b + w)) = b)
    ∨ (b < c ∧ c < b + w ∧ max b (min c (b + w)) = c)
    ∨ (b + w ≤ c ∧ max b (min c (b + w)) = b + w) := by
  rcases le_or_lt c b with h1 | h1
  · left
    refine ⟨h1, ?_⟩
    rw [min_eq_left (by linarith), max_eq_left h1]
  · rcases lt_or_le c (b + w) with h2 | h2
    · right; left
      refine ⟨h1, h2, ?_⟩
      rw [min_eq_left (le_of_lt h2), max_eq_right (le_of_lt h1)]
    · right; right
      refine ⟨h2, ?_⟩
      rw [min_eq_right h2, max_eq_right (by linarith)]

/-- On one axis: the nearest point lies in `[b, b + w]`. -/
theorem nearest1_mem (b w c : α) (hw : 0 ≤ w) :
    b ≤ max b (min c (b + w)) ∧ max b (min c (b + w)) ≤ b + w := by
  rcases nearest1_cases b w c hw with ⟨h, e⟩ | ⟨h1, h2, e⟩ | ⟨h, e⟩ <;> rw [e] <;>
    constructor <;> linarith

/-- On one axis: no point of `[b, b + w]` is closer to `c`. -/
theorem nearest1_le (b w c q : α) (hw : 0 ≤ w) (h0 : b ≤ q) (h1 : q ≤ b + w) :
    (max b (min c (b + w)) - c) ^ 2 ≤ (q - c) ^ 2 := by
  rcases nearest1_cases b w c hw with ⟨h, e⟩ | ⟨h2, h3, e⟩ | ⟨h, e⟩ <;> rw [e]
  · nlinarith
  · nlinarith [sq_nonneg (q - c)]
  · nlinarith

/-- On one axis: the nearest point is within `r` exactly when the spans enlarged by `r`
meet, which is the bounding-box test. -/
theorem nearest1_sq_lt (b w c r : α) (hw : 0 ≤ w) (hr : 0 < r) :
    (max b (min c (b + w)) - c) ^ 2 < r * r ↔ (b < c + r ∧ c - r < b + w) := by
  rcases nearest1_cases b w c hw with ⟨h, e⟩ | ⟨h2, h3, e⟩ | ⟨h, e⟩ <;> rw [e]
  · constructor
    · intro hlt
      refine ⟨?_, by linarith⟩
      by_contra hc
      nlinarith
    · rintro ⟨h1, _⟩
      nlinarith
  · constructor
    · intro _
      exact ⟨by linarith, by linarith⟩
    · intro _
      nlinarith
  · constructor
    · intro hlt
      refine ⟨by linarith, ?_⟩
      by_contra hc
      nlinarith
    · rintro ⟨_, h1⟩
      nlinarith

/-- The circle-against-box test is the comparison of the squared distance from the centre to
the nearest point of the closed rectangle with the squared radius. -/
theorem Body.CircleCollidesBox_iff_nearest (box circle : Body α)
    (hw : 0 ≤ box.size.x) (hh : 0 ≤ box.size.y) (hr : 0 < circle.radius)
    (hsize : circle.size = ⟨circle.radius * 2, circle.radius * 2⟩) :
    box.CircleCollidesBox circle = true ↔
      SquaredDistance (Spec.NearestPointOfRect box circle.pos) circle.pos
        < circle.radius * circle.radius := by
  rw [Body.CircleCollidesBox_eq_true_iff, Body.BoxCollidesBoxAt_eq_true_iff, hsize]
  simp only [SquaredDistance, Spec.NearestPointOfRect, pVector.sub_x, pVector.sub_y,
    pVector.add_x, pVector.add_y, add_zero]
  have bx := nearest1_sq_lt box.pos.x box.size.x circle.pos.x circle.radius hw hr
  have by_ := nearest1_sq_lt box.pos.y box.size.y circle.pos.y circle.radius hh hr
  have cx := nearest1_cases box.pos.x box.size.x circle.pos.x hw
  have cy := nearest1_cases box.pos.y box.size.y circle.pos.y hh
  have lx := fun q => nearest1_le box.pos.x box.size.x circle.pos.x q hw
  have ly := fun q => nearest1_le box.pos.y box.size.y circle.pos.y q hh
  generalize max box.pos.x (min circle.pos.x (box.pos.x + box.size.x)) = nx at bx cx lx ⊢
  generalize max box.pos.y (min circle.pos.y (box.pos.y + box.size.y)) = ny at by_ cy ly ⊢
  have sx := sq_nonneg (nx - circle.pos.x)
  have sy := sq_nonneg (ny - circle.pos.y)
  constructor
  · rintro ⟨⟨⟨a1, a2⟩, a3, a4⟩, hk⟩
    have hbx := bx.2 ⟨by linarith, by linarith⟩
    have hby := by_.2 ⟨by linarith, by linarith⟩
    rcases hk with hk | hk | hk | hk | hk | hk
    · rcases cx with ⟨h, _⟩ | ⟨_, _, e⟩ | ⟨h, _⟩
      · exact absurd hk.1 (not_lt.2 h)
      · rw [e, sub_self]; nlinarith
      · exact absurd hk.2 (not_lt.2 h)
    · rcases cy with ⟨h, _⟩ | ⟨_, _, e⟩ | ⟨h, _⟩
      · exact absurd hk.1 (not_lt.2 h)
      · rw [e, sub_self]; nlinarith
      · exact absurd hk.2 (not_lt.2 h)
    · have h1 := lx box.pos.x (le_refl _) (by linarith)
      have h2 := ly box.pos.y (le_refl _) (by linarith)
      linarith
    · have h1 := lx (box.pos.x + box.size.x) (by linarith) (le_refl _)
      have h2 := ly box.pos.y (le_refl _) (by linarith)
      linarith
    · have h1 := lx box.pos.x (le_refl _) (by linarith)
      have h2 := ly (box.pos.y + box.size.y) (by linarith) (le_refl _)
      linarith
    · have h1 := lx (box.pos.x + box.size.x) (by linarith) (le_refl _)
      have h2 := ly (box.pos.y + box.size.y) (by linarith) (le_refl _)
      linarith
  · intro hG
    have hbx := bx.1 (by linarith)
    have hby := by_.1 (by linarith)
    refine ⟨⟨⟨by linarith [hbx.1], by linarith [hbx.2]⟩, by linarith [hby.1],
      by linarith [hby.2]⟩, ?_⟩
    rcases cx with ⟨_, ex⟩ | ⟨h1, h2, _⟩ | ⟨_, ex⟩
    · rcases cy with ⟨_, ey⟩ | ⟨h1, h2, _⟩ | ⟨_, ey⟩
      · rw [ex, ey] at hG
        exact Or.inr (Or.inr (Or.inl hG))
      · exact Or.inr (Or.inl ⟨h1, h2⟩)
      · rw [ex, ey] at hG
        exact Or.inr (Or.inr (Or.inr (Or.inr (Or.inl hG))))
    · exact Or.inl ⟨h1, h2⟩
    · rcases cy with ⟨_, ey⟩ | ⟨h1, h2, _⟩ | ⟨_, ey⟩
      · rw [ex, ey] at hG
        exact Or.inr (Or.inr (Or.inr (Or.inl hG)))
      · exact Or.inr (Or.inl ⟨h1, h2⟩)
      · rw [ex, ey] at hG
        exact Or.inr (Or.inr (Or.inr (Or.inr (Or.inr hG))))

end MoreLemmas

/-! ## The two embeddings agree at exact arithmetic -/

section MachineLemmas

variable {α : Type} [LinearOrderedField α]

/-- At exact arithmetic `Machine.Distance` is `Distance`. -/
theorem Machine.Distance_exact (sqrtf : α → α) (p q : pVector α) :
    Machine.Distance (FloatArith.exact sqrtf) p q = Physics.Distance sqrtf p q := rfl

/-- At exact arithmetic `Machine.SquaredDistance` is `SquaredDistance`. -/
theorem Machine.SquaredDistance_exact (sqrtf : α → α) (p q : pVector α) :
    Machine.SquaredDistance (FloatArith.exact sqrtf) p q = Physics.SquaredDistance p q := rfl

/-- At exact arithmetic `Machine.BoxCollidesBox` is `Body.BoxCollidesBox`. -/
theorem Machine.BoxCollidesBox_exact (sqrtf : α → α) (a b : Body α) :
    Machine.BoxCollidesBox (FloatArith.exact sqrtf) a b = a.BoxCollidesBox b := rfl

/-- At exact arithmetic `Machine.BoxCollidesBoxAt` is `Body.BoxCollidesBoxAt`. -/
theorem Machine.BoxCollidesBoxAt_exact (sqrtf : α → α) (a : Body α) (oPos oSize : pVector α) :
    Machine.BoxCollidesBoxAt (FloatArith.exact sqrtf) a oPos oSize
      = a.BoxCollidesBoxAt oPos oSize := rfl

/-- At exact arithmetic `Machine.CircleCollidesCircle` is `Body.CircleCollidesCircle`. -/
theorem Machine.CircleCollidesCircle_exact (sqrtf : α → α) (a b : Body α) :
    Machine.CircleCollidesCircle (FloatArith.exact sqrtf) a b
      = a.CircleCollidesCircle sqrtf b := rfl

/-- At exact arithmetic `Machine.newCircle` is `Body.newCircle`. -/
theorem Machine.newCircle_exact (sqrtf : α → α) (Pos : pVector α) (Radius : α) :
    Machine.newCircle (FloatArith.exact sqrtf) Pos Radius = Body.newCircle Pos Radius := by
  simp [Machine.newCircle, Body.newCircle, FloatArith.exact, pVector.zero]

/-- At exact arithmetic `Machine.CircleCollidesBox` is `Body.CircleCollidesBox`. -/
theorem Machine.CircleCollidesBox_exact (sqrtf : α → α) (box circle : Body α) :
    Machine.CircleCollidesBox (FloatArith.exact sqrtf) box circle
      = box.CircleCollidesBox circle := by
  rw [Bool.eq_iff_iff, Body.CircleCollidesBox_eq_true_iff]
  unfold Machine.CircleCollidesBox
  rw [Machine.BoxCollidesBoxAt_exact]
  have hsub : Machine.sub (FloatArith.exact sqrtf) circle.pos ⟨circle.radius, circle.radius⟩
      = circle.pos - ⟨circle.radius, circle.radius⟩ := rfl
  have hadd : ∀ p q : pVector α, Machine.add (FloatArith.exact sqrtf) p q = p + q :=
    fun _ _ => rfl
  have h0 : (FloatArith.exact sqrtf).ofInt 0 = (0 : α) := by simp [FloatArith.exact]
  have hlt : ∀ a b : α, ((FloatArith.exact sqrtf).lt a b = true) ↔ a < b := by
    intro a b; simp [FloatArith.exact]
  have hmul : (FloatArith.exact sqrtf).mul circle.radius circle.radius
      = circle.radius * circle.radius := rfl
  simp only [hsub, hadd, h0, hmul, Machine.SquaredDistance_exact]
  have hadd2 : ∀ a b : α, (FloatArith.exact sqrtf).add a b = a + b := fun _ _ => rfl
  simp only [hadd2]
  cases hb : box.BoxCollidesBoxAt (circle.pos - ⟨circle.radius, circle.radius⟩) circle.size
  · simp
  · simp only [Bool.not_true, Bool.false_eq_true, if_false, true_and, Bool.and_eq_true,
      Bool.or_eq_true, hlt]
    split_ifs with h1 h2 h3
    · exact ⟨fun _ => Or.inl h1, fun _ => rfl⟩
    · exact ⟨fun _ => Or.inr (Or.inl h2), fun _ => rfl⟩
    · refine ⟨fun _ => Or.inr (Or.inr ?_), fun _ => rfl⟩
      rcases h3 with ((h | h) | h) | h
      · exact Or.inl h
      · exact Or.inr (Or.inl h)
      · exact Or.inr (Or.inr (Or.inl h))
      · exact Or.inr (Or.inr (Or.inr h))
    · refine ⟨fun h => absurd h (by decide), fun h => ?_⟩
      rcases h with h | h | h | h | h | h
      · exact absurd h h1
      · exact absurd h h2
      · exact absurd (Or.inl (Or.inl (Or.inl h))) h3
      · exact absurd (Or.inl (Or.inl (Or.inr h))) h3
      · exact absurd (Or.inl (Or.inr h)) h3
      · exact absurd (Or.inr h) h3

/-- At exact arithmetic `Machine.Wrap` is `Body.Wrap`. -/
theorem Machine.Wrap_exact (sqrtf : α → α) (st : Statics) (b : Body α) :
    Machine.Wrap (FloatArith.exact sqrtf) st b = Body.Wrap st b := by
  have h0 : (FloatArith.exact sqrtf).ofInt 0 = (0 : α) := by simp [FloatArith.exact]
  have hW : ∀ n : Int, (FloatArith.exact sqrtf).ofInt n = (n : α) := fun _ => rfl
  have hlt : ∀ a b : α, ((FloatArith.exact sqrtf).lt a b = true) ↔ a < b := by
    intro a b; simp [FloatArith.exact]
  unfold Machine.Wrap Body.Wrap
  simp only [h0, hlt, gt_iff_lt, hW]

end MachineLemmas

/-- The value of a finite binary32 number. -/
theorem Binary32.toRat_some (m e : Int) :
    Binary32.toRat (some ⟨m, e⟩) = (m : ℚ) * 2 ^ e := rfl

/-! ## Rounding in binary32 -/

/-- In binary32 the sum `2 ^ 24 + 1` is `2 ^ 24`: the box at `(2 ^ 24, 0)` of size `(1, 1)`
does not collide with itself, although its sizes are positive and, over real arithmetic, the
open intervals of the two boxes overlap. -/
theorem BoxCollidesBox_binary32_absorbed :
    (0 < Binary32.toRat Binary32.sceneUnitBox.size.x
      ∧ 0 < Binary32.toRat Binary32.sceneUnitBox.size.y)
    ∧ Binary32.toRat Binary32.sceneUnitBox.pos.x = 2 ^ 24
    ∧ Machine.BoxCollidesBox Binary32.arith Binary32.sceneUnitBox Binary32.sceneUnitBox
        = false
    ∧ Spec.BoxesOverlap (Body.newBox (⟨2 ^ 24, 0⟩ : pVector ℚ) ⟨1, 1⟩ 0)
        (Body.newBox (⟨2 ^ 24, 0⟩ : pVector ℚ) ⟨1, 1⟩ 0) := by
  have h1 : Binary32.sceneUnitBox.pos = ⟨some ⟨8388608, 1⟩, some ⟨0, 0⟩⟩ := by decide
  have h2 : Binary32.sceneUnitBox.size = ⟨some ⟨1, 0⟩, some ⟨1, 0⟩⟩ := by decide
  refine ⟨?_, ?_, by decide, ?_⟩
  · rw [h2]; norm_num [Binary32.toRat_some]
  · rw [h1]; norm_num [Binary32.toRat_some]
  · rw [Spec.BoxesOverlap, Spec.OpenIntervalsOverlap_iff, Spec.OpenIntervalsOverlap_iff]
    norm_num [Body.newBox]

/-- In binary32 `10 - 2 ^ (-22)` is `10`: the box of size `(0, 0)` at `(10, 10)` does not
collide with the circle of radius `2 ^ (-22)` centred on it, although the radius is positive
and the distance to the centre is zero. -/
theorem CircleCollidesBox_binary32_zero_size :
    Binary32.toRat Binary32.sceneZeroBox.size.x = 0
    ∧ Binary32.toRat Binary32.sceneZeroBox.size.y = 0
    ∧ Binary32.sceneZeroBox.pos = Binary32.sceneTinyCircle.pos
    ∧ 0 < Binary32.toRat Binary32.sceneTinyCircle.radius
    ∧ Machine.CircleCollidesBox Binary32.arith Binary32.sceneZeroBox Binary32.sceneTinyCircle
        = false := by
  have h2 : Binary32.sceneZeroBox.size = ⟨some ⟨0, 0⟩, some ⟨0, 0⟩⟩ := by decide
  have h4 : Binary32.sceneTinyCircle.radius = some ⟨1, -22⟩ := by decide
  refine ⟨?_, ?_, by decide, ?_, by decide⟩
  · rw [h2]; norm_num [Binary32.toRat_some]
  · rw [h2]; norm_num [Binary32.toRat_some]
  · rw [h4]; norm_num [Binary32.toRat_some]

/-! ## Claims -/

section Claims

variable {α : Type} [LinearOrderedField α]

/-- C1. `Move` is all-or-nothing. With `moved` the body at `self` placed at `pos + m`: if some
element of `L` other than `self` collides with `moved` (per `CheckCollision`), the memory
after `Move` is the memory before it, so the position of the body is its original
position; if no element of `L` other than `self` collides, the only change is that the
position is exactly `pos + m`; and occurrences of `self` in `L` never matter: removing them
from `L` gives the same result. -/
theorem Move_all_or_nothing (sqrtf : α → α) (mem : Memory α) (self : Nat) (m : pVector α)
    (L : List Nat) :
    ((∃ o ∈ L, o ≠ self ∧
          Body.CheckCollision sqrtf { mem self with pos := (mem self).pos + m } (mem o)
            = true) →
        Body.Move sqrtf mem self m L = mem
          ∧ (Body.Move sqrtf mem self m L self).pos = (mem self).pos)
    ∧ ((∀ o ∈ L, o ≠ self →
          Body.CheckCollision sqrtf { mem self with pos := (mem self).pos + m } (mem o)
            = false) →
        Body.Move sqrtf mem self m L = mem.setPos self ((mem self).pos + m)
          ∧ (Body.Move sqrtf mem self m L self).pos = (mem self).pos + m)
    ∧ Body.Move sqrtf mem self m L
        = Body.Move sqrtf mem self m (L.filter (fun o => decide (o ≠ self))) := by
  refine ⟨?_, ?_, ?_⟩
  · rintro ⟨o, ho, hne, hc⟩
    have key : Body.Move sqrtf mem self m L = mem := by
      unfold Body.Move
      rw [Body.MoveLoop_collision sqrtf self _ _ L
        ⟨o, ho, hne, by rw [Memory.setPos_same, Memory.setPos_other _ _ _ _ hne]; exact hc⟩]
      exact Memory.setPos_setPos_orig mem self _
    exact ⟨key, by rw [key]⟩
  · intro h
    have key : Body.Move sqrtf mem self m L = mem.setPos self ((mem self).pos + m) := by
      unfold Body.Move
      exact Body.MoveLoop_no_collision sqrtf self _ _ L (fun o ho hne => by
        rw [Memory.setPos_same, Memory.setPos_other _ _ _ _ hne]; exact h o ho hne)
    exact ⟨key, by rw [key, Memory.setPos_same]⟩
  · unfold Body.Move
    exact Body.MoveLoop_filter sqrtf self _ _ L

/-- C1, evaluated on `sceneTwoBoxes`: moving the box at address `0` by `(6, 0)` runs into
the box at `(15, 0)` and leaves it at `(0, 0)`; moving it by `(4, 0)` puts it at
`(0, 0) + (4, 0)`. The list holds the moved body itself. -/
theorem Move_all_or_nothing_witness :
    (Body.Move (fun v => v) sceneTwoBoxes 0 ⟨6, 0⟩ [0, 1] 0).pos = ⟨0, 0⟩
    ∧ (Body.Move (fun v => v) sceneTwoBoxes 0 ⟨4, 0⟩ [0, 1] 0).pos
        = (⟨0, 0⟩ : pVector ℚ) + ⟨4, 0⟩ :=
  ⟨((Move_all_or_nothing (fun v => v) sceneTwoBoxes 0 ⟨6, 0⟩ [0, 1]).1
      ⟨1, by simp, by decide, by
        norm_num [sceneTwoBoxes, Body.CheckCollision, Body.BoxCollidesBox, Body.newBox,
          (by decide : BodyType.Box ≠ BodyType.Circle)]⟩).2,
   ((Move_all_or_nothing (fun v => v) sceneTwoBoxes 0 ⟨4, 0⟩ [0, 1]).2.1
      (by
        intro o ho hne
        have : o = 1 := by simpa [hne] using ho
        subst this
        norm_num [sceneTwoBoxes, Body.CheckCollision, Body.BoxCollidesBox, Body.newBox,
          (by decide : BodyType.Box ≠ BodyType.Circle)])).2⟩

/-- C2 fails in binary32: the circles of radius `5` at `(0, 0)` and of radius `2 ^ (-25)` at
`(3, 4)` have their centres at Euclidean distance `5`, strictly less than
`5 + 2 ^ (-25)`, and `CircleCollidesCircle` is false: `Distance` is `5` and the sum of the
radii is rounded to `5`. -/
theorem CircleCollidesCircle_binary32_counterexample :
    Binary32.toRat Binary32.sceneCircleA.pos.x = 0
    ∧ Binary32.toRat Binary32.sceneCircleA.pos.y = 0
    ∧ Binary32.toRat Binary32.sceneCircleA.radius = 5
    ∧ Binary32.toRat Binary32.sceneCircleB.pos.x = 3
    ∧ Binary32.toRat Binary32.sceneCircleB.pos.y = 4
    ∧ Binary32.toRat Binary32.sceneCircleB.radius = 1 / 2 ^ 25
    ∧ Machine.CircleCollidesCircle Binary32.arith Binary32.sceneCircleA Binary32.sceneCircleB
        = false
    ∧ dist ((WithLp.equiv 2 (Fin 2 → ℝ)).symm ![0, 0] : EuclideanSpace ℝ (Fin 2))
          ((WithLp.equiv 2 (Fin 2 → ℝ)).symm ![3, 4])
        < (5 : ℝ) + 1 / 2 ^ 25 := by
  have h1 : Binary32.sceneCircleA.pos.x = some ⟨0, 0⟩ := by decide
  have h2 : Binary32.sceneCircleA.pos.y = some ⟨0, 0⟩ := by decide
  have h3 : Binary32.sceneCircleA.radius = some ⟨5, 0⟩ := by decide
  have h4 : Binary32.sceneCircleB.pos.x = some ⟨3, 0⟩ := by decide
  have h5 : Binary32.sceneCircleB.pos.y = some ⟨4, 0⟩ := by decide
  have h6 : Binary32.sceneCircleB.radius = some ⟨1, -25⟩ := by decide
  refine ⟨?_, ?_, ?_, ?_, ?_, ?_, by decide, ?_⟩
  · rw [h1, Binary32.toRat_some]; norm_num
  · rw [h2, Binary32.toRat_some]; norm_num
  · rw [h3, Binary32.toRat_some]; norm_num
  · rw [h4, Binary32.toRat_some]; norm_num
  · rw [h5, Binary32.toRat_some]; norm_num
  · rw [h6, Binary32.toRat_some]; norm_num
  · rw [EuclideanSpace.dist_eq]
    have h : Real.sqrt 25 = 5 := by
      rw [show (25 : ℝ) = 5 ^ 2 by norm_num]
      exact Real.sqrt_sq (by norm_num)
    norm_num [Fin.sum_univ_two, Real.dist_eq, sq_abs, h]

/-- C2, amended. Over real arithmetic, `a.CircleCollidesCircle(b)` is true if and only if the Euclidean
distance between the two positions is strictly less than `a.radius + b.radius`; in
particular circles whose centres are exactly `a.radius + b.radius` apart are not
colliding. -/
theorem CircleCollidesCircle_iff_dist_lt (a b : Body ℝ) :
    (Body.CircleCollidesCircle Real.sqrt a b = true ↔
      dist ((WithLp.equiv 2 (Fin 2 → ℝ)).symm ![a.pos.x, a.pos.y] : EuclideanSpace ℝ (Fin 2))
          ((WithLp.equiv 2 (Fin 2 → ℝ)).symm ![b.pos.x, b.pos.y])
        < a.radius + b.radius)
    ∧ (dist ((WithLp.equiv 2 (Fin 2 → ℝ)).symm ![a.pos.x, a.pos.y] : EuclideanSpace ℝ (Fin 2))
          ((WithLp.equiv 2 (Fin 2 → ℝ)).symm ![b.pos.x, b.pos.y])
        = a.radius + b.radius →
        Body.CircleCollidesCircle Real.sqrt a b = false) := by
  unfold Body.CircleCollidesCircle
  rw [Distance_eq_dist]
  refine ⟨by simp, fun h => ?_⟩
  simp [h]

/-- C2, evaluated: the circles of radius `2` at `(0, 0)` and of radius `3` at `(3, 4)` have
their centres exactly `2 + 3` apart and do not collide. -/
theorem CircleCollidesCircle_iff_dist_lt_witness :
    Body.CircleCollidesCircle Real.sqrt (Body.newCircle ⟨0, 0⟩ 2) (Body.newCircle ⟨3, 4⟩ 3)
      = false :=
  (CircleCollidesCircle_iff_dist_lt (Body.newCircle ⟨0, 0⟩ 2) (Body.newCircle ⟨3, 4⟩ 3)).2
    (by
      rw [← Distance_eq_dist]
      have h : Real.sqrt 25 = 5 := by
        rw [show (25 : ℝ) = 5 ^ 2 by norm_num]
        exact Real.sqrt_sq (by norm_num)
      norm_num [Distance, Body.newCircle, h])

/-- C3 fails for a box of size zero: the box at `(5, 5)` of size `(0, 0)` and the box at
`(0, 0)` of size `(10, 10)` have non-negative sizes, `BoxCollidesBox` is true, and the open
interval `(5, 5 + 0)` is empty, so the open intervals do not overlap. -/
theorem BoxCollidesBox_zero_size_counterexample :
    (0 : ℚ) ≤ (Body.newBox (⟨5, 5⟩ : pVector ℚ) ⟨0, 0⟩ 0).size.x
    ∧ (0 : ℚ) ≤ (Body.newBox (⟨5, 5⟩ : pVector ℚ) ⟨0, 0⟩ 0).size.y
    ∧ (0 : ℚ) ≤ (Body.newBox (⟨0, 0⟩ : pVector ℚ) ⟨10, 10⟩ 0).size.x
    ∧ (0 : ℚ) ≤ (Body.newBox (⟨0, 0⟩ : pVector ℚ) ⟨10, 10⟩ 0).size.y
    ∧ (Body.newBox (⟨5, 5⟩ : pVector ℚ) ⟨0, 0⟩ 0).BoxCollidesBox
        (Body.newBox ⟨0, 0⟩ ⟨10, 10⟩ 0) = true
    ∧ ¬ Spec.BoxesOverlap (Body.newBox (⟨5, 5⟩ : pVector ℚ) ⟨0, 0⟩ 0)
        (Body.newBox ⟨0, 0⟩ ⟨10, 10⟩ 0) := by
  refine ⟨by norm_num [Body.newBox], by norm_num [Body.newBox], by norm_num [Body.newBox],
    by norm_num [Body.newBox], by norm_num [Body.newBox, Body.BoxCollidesBox], ?_⟩
  rw [Spec.BoxesOverlap, Spec.OpenIntervalsOverlap_iff]
  norm_num [Body.newBox]

/-- C3, amended. Over real arithmetic: for two bodies whose sizes are strictly positive,
`a.BoxCollidesBox(b)` is true if and only if their open x-intervals
`(pos.x, pos.x + size.x)` overlap and their open y-intervals overlap. For all sizes it is
true if and only if the four strict inequalities of the source hold. Two boxes sharing an edge (one box's right or bottom edge
is the other's left or top edge) are not colliding, and boxes whose common part is 1 unit
long on both axes are colliding. -/
theorem BoxCollidesBox_iff_overlap (a b : Body α) :
    (0 < a.size.x ∧ 0 < a.size.y ∧ 0 < b.size.x ∧ 0 < b.size.y →
        (a.BoxCollidesBox b = true ↔ Spec.BoxesOverlap a b))
    ∧ (a.BoxCollidesBox b = true ↔
        a.pos.y < b.pos.y + b.size.y ∧ a.pos.y + a.size.y > b.pos.y
          ∧ a.pos.x < b.pos.x + b.size.x ∧ a.pos.x + a.size.x > b.pos.x)
    ∧ (a.pos.x + a.size.x = b.pos.x ∨ a.pos.y + a.size.y = b.pos.y
          ∨ b.pos.x + b.size.x = a.pos.x ∨ b.pos.y + b.size.y = a.pos.y →
        a.BoxCollidesBox b = false)
    ∧ (min (a.pos.x + a.size.x) (b.pos.x + b.size.x) - max a.pos.x b.pos.x = 1
          ∧ min (a.pos.y + a.size.y) (b.pos.y + b.size.y) - max a.pos.y b.pos.y = 1 →
        a.BoxCollidesBox b = true) := by
  refine ⟨?_, ?_, ?_, ?_⟩
  · rintro ⟨h1, h2, h3, h4⟩
    rw [Body.BoxCollidesBox_eq_true_iff, Spec.BoxesOverlap, Spec.OpenIntervalsOverlap_iff,
      Spec.OpenIntervalsOverlap_iff]
    tauto
  · rw [Body.BoxCollidesBox_eq_true_iff]
    simp only [gt_iff_lt]
    tauto
  · intro h
    rw [← Bool.not_eq_true, Body.BoxCollidesBox_eq_true_iff]
    rintro ⟨⟨h1, h2⟩, h3, h4⟩
    rcases h with h | h | h | h <;> linarith
  · rintro ⟨hx, hy⟩
    rw [Body.BoxCollidesBox_eq_true_iff]
    have hx1 : max a.pos.x b.pos.x < min (a.pos.x + a.size.x) (b.pos.x + b.size.x) := by
      linarith
    have hy1 : max a.pos.y b.pos.y < min (a.pos.y + a.size.y) (b.pos.y + b.size.y) := by
      linarith
    rw [max_lt_iff, lt_min_iff, lt_min_iff] at hx1 hy1
    tauto

/-- C3, evaluated on boxes of size `10 × 10`: at `(0, 0)` and `(9, 9)` the test agrees with
the overlap of the open intervals and is true (overlap by 1 unit); at `(0, 0)` and
`(10, 0)` the boxes share an edge and the test is false. -/
theorem BoxCollidesBox_iff_overlap_witness :
    ((Body.newBox (⟨0, 0⟩ : pVector ℚ) ⟨10, 10⟩ 0).BoxCollidesBox
        (Body.newBox ⟨9, 9⟩ ⟨10, 10⟩ 0) = true
      ↔ Spec.BoxesOverlap (Body.newBox (⟨0, 0⟩ : pVector ℚ) ⟨10, 10⟩ 0)
          (Body.newBox ⟨9, 9⟩ ⟨10, 10⟩ 0))
    ∧ (Body.newBox (⟨0, 0⟩ : pVector ℚ) ⟨10, 10⟩ 0).BoxCollidesBox
        (Body.newBox ⟨10, 0⟩ ⟨10, 10⟩ 0) = false
    ∧ (Body.newBox (⟨0, 0⟩ : pVector ℚ) ⟨10, 10⟩ 0).BoxCollidesBox
        (Body.newBox ⟨9, 9⟩ ⟨10, 10⟩ 0) = true :=
  ⟨(BoxCollidesBox_iff_overlap (Body.newBox (⟨0, 0⟩ : pVector ℚ) ⟨10, 10⟩ 0)
      (Body.newBox ⟨9, 9⟩ ⟨10, 10⟩ 0)).1 (by norm_num [Body.newBox]),
   (BoxCollidesBox_iff_overlap (Body.newBox (⟨0, 0⟩ : pVector ℚ) ⟨10, 10⟩ 0)
      (Body.newBox ⟨10, 0⟩ ⟨10, 10⟩ 0)).2.2.1 (by norm_num [Body.newBox]),
   (BoxCollidesBox_iff_overlap (Body.newBox (⟨0, 0⟩ : pVector ℚ) ⟨10, 10⟩ 0)
      (Body.newBox ⟨9, 9⟩ ⟨10, 10⟩ 0)).2.2.2 (by norm_num [Body.newBox])⟩

/-- C4 fails in binary32: the box at `(0, 0)` has the non-negative size `(10, 10)`, the circle
of positive radius `2 ^ (-22)` is centred exactly at its corner `(10, 10)`, and
`CircleCollidesBox` is false: `10 - 2 ^ (-22)` is rounded to `10`, so the bounding-box test
fails. -/
theorem CircleCollidesBox_binary32_corner_counterexample :
    (0 ≤ Binary32.toRat Binary32.sceneBox.size.x ∧ 0 ≤ Binary32.toRat Binary32.sceneBox.size.y)
    ∧ 0 < Binary32.toRat Binary32.sceneTinyCircle.radius
    ∧ Binary32.toRat Binary32.sceneTinyCircle.pos.x
        = Binary32.toRat Binary32.sceneBox.pos.x + Binary32.toRat Binary32.sceneBox.size.x
    ∧ Binary32.toRat Binary32.sceneTinyCircle.pos.y
        = Binary32.toRat Binary32.sceneBox.pos.y + Binary32.toRat Binary32.sceneBox.size.y
    ∧ Machine.CircleCollidesBox Binary32.arith Binary32.sceneBox Binary32.sceneTinyCircle
        = false := by
  have h1 : Binary32.sceneBox.pos = ⟨some ⟨0, 0⟩, some ⟨0, 0⟩⟩ := by decide
  have h2 : Binary32.sceneBox.size = ⟨some ⟨10, 0⟩, some ⟨10, 0⟩⟩ := by decide
  have h3 : Binary32.sceneTinyCircle.pos = ⟨some ⟨10, 0⟩, some ⟨10, 0⟩⟩ := by decide
  have h4 : Binary32.sceneTinyCircle.radius = some ⟨1, -22⟩ := by decide
  refine ⟨?_, ?_, ?_, ?_, by decide⟩
  · rw [h2]; norm_num [Binary32.toRat_some]
  · rw [h4]; norm_num [Binary32.toRat_some]
  · rw [h1, h2, h3]; norm_num [Binary32.toRat_some]
  · rw [h1, h2, h3]; norm_num [Binary32.toRat_some]

/-- C4, amended. Over real arithmetic, for every box with non-negative size and every circle of positive radius (whose
`size` is the `(2r, 2r)` set by the circle constructor) whose centre is exactly at one of
the four corners of the box, `box.CircleCollidesBox(circle)` is true. -/
theorem CircleCollidesBox_at_corner (box circle : Body α)
    (hw : 0 ≤ box.size.x) (hh : 0 ≤ box.size.y) (hr : 0 < circle.radius)
    (hsize : circle.size = ⟨circle.radius * 2, circle.radius * 2⟩)
    (hcorner : circle.pos = box.pos
      ∨ circle.pos = box.pos + ⟨box.size.x, 0⟩
      ∨ circle.pos = box.pos + ⟨0, box.size.y⟩
      ∨ circle.pos = box.pos + ⟨box.size.x, box.size.y⟩) :
    box.CircleCollidesBox circle = true := by
  have hr2 : 0 < circle.radius * circle.radius := mul_pos hr hr
  have hbb : box.BoxCollidesBoxAt (circle.pos - ⟨circle.radius, circle.radius⟩) circle.size
      = true := by
    simp only [Body.BoxCollidesBoxAt, hsize, Bool.and_eq_true, decide_eq_true_eq, gt_iff_lt,
      pVector.sub_x, pVector.sub_y]
    rcases hcorner with h | h | h | h <;> rw [h] <;>
      refine ⟨⟨⟨?_, ?_⟩, ?_⟩, ?_⟩ <;> (try simp only [pVector.add_x, pVector.add_y]) <;> linarith
  have hcorner2 : SquaredDistance box.pos circle.pos < circle.radius * circle.radius
      ∨ SquaredDistance (box.pos + ⟨box.size.x, 0⟩) circle.pos < circle.radius * circle.radius
      ∨ SquaredDistance (box.pos + ⟨0, box.size.y⟩) circle.pos < circle.radius * circle.radius
      ∨ SquaredDistance (box.pos + ⟨box.size.x, box.size.y⟩) circle.pos
          < circle.radius * circle.radius := by
    rcases hcorner with h | h | h | h
    · left; rw [h]; simpa [SquaredDistance] using hr2
    · right; left; rw [h]; simpa [SquaredDistance] using hr2
    · right; right; left; rw [h]; simpa [SquaredDistance] using hr2
    · right; right; right; rw [h]; simpa [SquaredDistance] using hr2
  unfold Body.CircleCollidesBox
  rw [hbb]
  simp only [Bool.not_true, Bool.false_eq_true, if_false]
  split_ifs <;> rfl

/-- C4, evaluated: the circle of radius `1` centred at the corner `(10, 10)` of the box at
`(0, 0)` of size `(10, 10)` collides. -/
theorem CircleCollidesBox_at_corner_witness :
    (Body.newBox (⟨0, 0⟩ : pVector ℚ) ⟨10, 10⟩ 0).CircleCollidesBox
      (Body.newCircle ⟨10, 10⟩ 1) = true :=
  CircleCollidesBox_at_corner (Body.newBox (⟨0, 0⟩ : pVector ℚ) ⟨10, 10⟩ 0)
    (Body.newCircle ⟨10, 10⟩ 1) (by norm_num [Body.newBox]) (by norm_num [Body.newBox])
    (by norm_num [Body.newCircle]) (by norm_num [Body.newCircle])
    (Or.inr (Or.inr (Or.inr (by ext <;> norm_num [Body.newBox, Body.newCircle]))))

/-- C5 fails in binary32: for the box at `(2 ^ 25, 0)` of size `(3, 1)` and the circle of
radius `17 / 8` at `(2 ^ 25 + 4, -2)`, the centre is outside the horizontal span
(`2 ^ 25 + 3 < 2 ^ 25 + 4`) and outside the vertical span (`-2 < 0`), its distance to each
of the four corners is greater than `17 / 8`, and `CircleCollidesBox` is true:
`2 ^ 25 + 3` is rounded to `2 ^ 25 + 4`, which puts the corner of the test at distance `2`
from the centre. -/
theorem CircleCollidesBox_binary32_far_counterexample :
    Binary32.toRat Binary32.sceneFarBox.pos.x = 33554432
    ∧ Binary32.toRat Binary32.sceneFarBox.pos.y = 0
    ∧ Binary32.toRat Binary32.sceneFarBox.size.x = 3
    ∧ Binary32.toRat Binary32.sceneFarBox.size.y = 1
    ∧ Binary32.toRat Binary32.sceneFarCircle.pos.x = 33554436
    ∧ Binary32.toRat Binary32.sceneFarCircle.pos.y = -2
    ∧ Binary32.toRat Binary32.sceneFarCircle.radius = 17 / 8
    ∧ ((33554432 : ℚ) + 3 < 33554436 ∧ (-2 : ℚ) < 0)
    ∧ ((17 / 8 : ℝ) < Real.sqrt ((33554432 - 33554436) ^ 2 + (0 - (-2)) ^ 2)
      ∧ (17 / 8 : ℝ) < Real.sqrt ((33554432 + 3 - 33554436) ^ 2 + (0 - (-2)) ^ 2)
      ∧ (17 / 8 : ℝ) < Real.sqrt ((33554432 - 33554436) ^ 2 + (0 + 1 - (-2)) ^ 2)
      ∧ (17 / 8 : ℝ) < Real.sqrt ((33554432 + 3 - 33554436) ^ 2 + (0 + 1 - (-2)) ^ 2))
    ∧ Machine.CircleCollidesBox Binary32.arith Binary32.sceneFarBox Binary32.sceneFarCircle
        = true := by
  have h1 : Binary32.sceneFarBox.pos = ⟨some ⟨8388608, 2⟩, some ⟨0, 0⟩⟩ := by decide
  have h2 : Binary32.sceneFarBox.size = ⟨some ⟨3, 0⟩, some ⟨1, 0⟩⟩ := by decide
  have h3 : Binary32.sceneFarCircle.pos = ⟨some ⟨8388609, 2⟩, some ⟨-2, 0⟩⟩ := by decide
  have h4 : Binary32.sceneFarCircle.radius = some ⟨17, -3⟩ := by decide
  refine ⟨?_, ?_, ?_, ?_, ?_, ?_, ?_, by norm_num, ⟨?_, ?_, ?_, ?_⟩, by decide⟩
  · rw [h1]; norm_num [Binary32.toRat_some]
  · rw [h1]; norm_num [Binary32.toRat_some]
  · rw [h2]; norm_num [Binary32.toRat_some]
  · rw [h2]; norm_num [Binary32.toRat_some]
  · rw [h3]; norm_num [Binary32.toRat_some]
  · rw [h3]; norm_num [Binary32.toRat_some]
  · rw [h4]; norm_num [Binary32.toRat_some]
  · exact (Real.lt_sqrt (by norm_num)).2 (by norm_num)
  · exact (Real.lt_sqrt (by norm_num)).2 (by norm_num)
  · exact (Real.lt_sqrt (by norm_num)).2 (by norm_num)
  · exact (Real.lt_sqrt (by norm_num)).2 (by norm_num)

/-- C5, amended. Over real arithmetic, for every box and every circle of radius `r` (whose `size` is the `(2r, 2r)` set by
the circle constructor): if the centre is not strictly inside the box's horizontal span
(in particular when it is outside it), is not strictly inside its vertical span, and its
distance to each of the four corners is greater than `r`, then
`box.CircleCollidesBox(circle)` is false. -/
theorem CircleCollidesBox_far_from_corners (box circle : Body ℝ)
    (hsize : circle.size = ⟨circle.radius * 2, circle.radius * 2⟩)
    (hx : ¬ (box.pos.x < circle.pos.x ∧ circle.pos.x < box.pos.x + box.size.x))
    (hy : ¬ (box.pos.y < circle.pos.y ∧ circle.pos.y < box.pos.y + box.size.y))
    (h1 : circle.radius < Distance Real.sqrt box.pos circle.pos)
    (h2 : circle.radius < Distance Real.sqrt (box.pos + ⟨box.size.x, 0⟩) circle.pos)
    (h3 : circle.radius < Distance Real.sqrt (box.pos + ⟨0, box.size.y⟩) circle.pos)
    (h4 : circle.radius
      < Distance Real.sqrt (box.pos + ⟨box.size.x, box.size.y⟩) circle.pos) :
    box.CircleCollidesBox circle = false := by
  have key : ∀ p : pVector ℝ, 0 ≤ circle.radius →
      circle.radius < Distance Real.sqrt p circle.pos →
      ¬ SquaredDistance p circle.pos < circle.radius * circle.radius := by
    intro p hr hp
    have h := (Real.lt_sqrt hr).1 hp
    unfold SquaredDistance
    nlinarith
  unfold Body.CircleCollidesBox
  by_cases hr : 0 ≤ circle.radius
  · have k1 := key _ hr h1
    have k2 := key _ hr h2
    have k3 := key _ hr h3
    have k4 := key _ hr h4
    simp only [gt_iff_lt]
    split_ifs <;> first | rfl | tauto
  · have hbb : box.BoxCollidesBoxAt (circle.pos - ⟨circle.radius, circle.radius⟩) circle.size
        = false := by
      rw [← Bool.not_eq_true]
      simp only [Body.BoxCollidesBoxAt, hsize, Bool.and_eq_true, decide_eq_true_eq, gt_iff_lt,
        pVector.sub_x, pVector.sub_y]
      rintro ⟨⟨⟨a1, a2⟩, a3⟩, a4⟩
      exact hy ⟨by linarith, by linarith⟩
    rw [hbb]
    rfl

/-- C5, evaluated: the circle of radius `1` at `(13, 14)` and the box at `(0, 0)` of size
`(10, 10)` do not collide. -/
theorem CircleCollidesBox_far_from_corners_witness :
    (Body.newBox (⟨0, 0⟩ : pVector ℝ) ⟨10, 10⟩ 0).CircleCollidesBox
      (Body.newCircle ⟨13, 14⟩ 1) = false :=
  CircleCollidesBox_far_from_corners (Body.newBox (⟨0, 0⟩ : pVector ℝ) ⟨10, 10⟩ 0)
    (Body.newCircle ⟨13, 14⟩ 1)
    (by norm_num [Body.newCircle])
    (by norm_num [Body.newBox, Body.newCircle])
    (by norm_num [Body.newBox, Body.newCircle])
    ((Real.lt_sqrt (by norm_num [Body.newCircle])).2
      (by norm_num [Body.newBox, Body.newCircle]))
    ((Real.lt_sqrt (by norm_num [Body.newCircle])).2
      (by norm_num [Body.newBox, Body.newCircle]))
    ((Real.lt_sqrt (by norm_num [Body.newCircle])).2
      (by norm_num [Body.newBox, Body.newCircle]))
    ((Real.lt_sqrt (by norm_num [Body.newCircle])).2
      (by norm_num [Body.newBox, Body.newCircle]))

/-- C6. `CheckCollision` dispatches on the two shape tags: for two circles it is
`CircleCollidesCircle`, for two boxes it is `BoxCollidesBox`, and for a box `a` and a
circle `b` both `a.CheckCollision(b)` and `b.CheckCollision(a)` are
`a.CircleCollidesBox(b)`. -/
theorem CheckCollision_dispatch (sqrtf : α → α) (a b : Body α) :
    (a.type = BodyType.Circle → b.type = BodyType.Circle →
        a.CheckCollision sqrtf b = a.CircleCollidesCircle sqrtf b)
    ∧ (a.type = BodyType.Box → b.type = BodyType.Box →
        a.CheckCollision sqrtf b = a.BoxCollidesBox b)
    ∧ (a.type = BodyType.Box → b.type = BodyType.Circle →
        a.CheckCollision sqrtf b = a.CircleCollidesBox b
          ∧ b.CheckCollision sqrtf a = a.CircleCollidesBox b) := by
  refine ⟨?_, ?_, ?_⟩
  · intro ha hb
    simp [Body.CheckCollision, ha, hb]
  · intro ha hb
    simp [Body.CheckCollision, ha, hb]
  · intro ha hb
    simp [Body.CheckCollision, ha, hb]

/-- C6, evaluated on a box and a circle: both orders of the call are the test on the box
side. -/
theorem CheckCollision_dispatch_witness :
    (Body.newBox (⟨0, 0⟩ : pVector ℚ) ⟨10, 10⟩ 0).CheckCollision (fun v => v)
        (Body.newCircle ⟨10, 10⟩ 1)
      = (Body.newBox (⟨0, 0⟩ : pVector ℚ) ⟨10, 10⟩ 0).CircleCollidesBox
          (Body.newCircle ⟨10, 10⟩ 1)
    ∧ (Body.newCircle (⟨10, 10⟩ : pVector ℚ) 1).CheckCollision (fun v => v)
        (Body.newBox ⟨0, 0⟩ ⟨10, 10⟩ 0)
      = (Body.newBox (⟨0, 0⟩ : pVector ℚ) ⟨10, 10⟩ 0).CircleCollidesBox
          (Body.newCircle ⟨10, 10⟩ 1) :=
  (CheckCollision_dispatch (fun v => v) (Body.newBox (⟨0, 0⟩ : pVector ℚ) ⟨10, 10⟩ 0)
    (Body.newCircle ⟨10, 10⟩ 1)).2.2 rfl rfl

/-- C7. `MoveAndAlign` is `Move`: from the same memory, with the same body, displacement and
list, both leave the same memory (every field of every body). -/
theorem MoveAndAlign_eq_Move (sqrtf : α → α) (mem : Memory α) (self : Nat) (m : pVector α)
    (L : List Nat) :
    Body.MoveAndAlign sqrtf mem self m L = Body.Move sqrtf mem self m L := by
  have loop : ∀ (origin : pVector α) (mem1 : Memory α) (L : List Nat),
      Body.MoveAndAlignLoop sqrtf self origin mem1 L
        = Body.MoveLoop sqrtf self origin mem1 L := by
    intro origin mem1 L
    induction L with
    | nil => rfl
    | cons a rest ih => simp only [Body.MoveAndAlignLoop, Body.MoveLoop, ih]
  simp only [Body.MoveAndAlign, Body.Move, loop]

/-- C8 fails in binary32: with `W = H = 2 ^ 25 + 3`, converted to `2 ^ 25 + 4`, the body at
`(-1, 2 ^ 25 + 4)` has `x < 0` and does not end at `x = W`, and has `y` greater than `H` and
does not end at `y = 0`. -/
theorem Wrap_binary32_counterexample :
    (0 ≤ (Body.Initialize 33554435 33554435).SCREEN_WIDTH
      ∧ 0 ≤ (Body.Initialize 33554435 33554435).SCREEN_HEIGHT)
    ∧ Binary32.toRat Binary32.sceneWrapBody.pos.x = -1
    ∧ Binary32.toRat Binary32.sceneWrapBody.pos.y = 33554436
    ∧ Binary32.toRat Binary32.sceneWrapBody.pos.x < 0
    ∧ Binary32.toRat (Machine.Wrap Binary32.arith (Body.Initialize 33554435 33554435)
          Binary32.sceneWrapBody).pos.x
        ≠ ((Body.Initialize 33554435 33554435).SCREEN_WIDTH : ℚ)
    ∧ ((Body.Initialize 33554435 33554435).SCREEN_HEIGHT : ℚ)
        < Binary32.toRat Binary32.sceneWrapBody.pos.y
    ∧ Binary32.toRat (Machine.Wrap Binary32.arith (Body.Initialize 33554435 33554435)
          Binary32.sceneWrapBody).pos.y ≠ 0 := by
  have h1 : Binary32.sceneWrapBody.pos = ⟨some ⟨-1, 0⟩, some ⟨8388609, 2⟩⟩ := by decide
  have h2 : (Machine.Wrap Binary32.arith (Body.Initialize 33554435 33554435)
      Binary32.sceneWrapBody).pos = ⟨some ⟨8388609, 2⟩, some ⟨8388609, 2⟩⟩ := by decide
  refine ⟨⟨by decide, by decide⟩, ?_, ?_, ?_, ?_, ?_, ?_⟩
  · rw [h1]; norm_num [Binary32.toRat_some]
  · rw [h1]; norm_num [Binary32.toRat_some]
  · rw [h1]; norm_num [Binary32.toRat_some]
  · rw [h2]; norm_num [Binary32.toRat_some, Body.Initialize]
  · rw [h1]; norm_num [Binary32.toRat_some, Body.Initialize]
  · rw [h2]; norm_num [Binary32.toRat_some]

/-- C8, amended. Over real arithmetic, with the screen bounds converted exactly, `Wrap` is a
hard reset per axis. With non-negative screen width `W` and height `H`:
the x coordinate becomes `0` if it was greater than `W`, becomes `W` if it was less than
`0`, and is unchanged otherwise; likewise y with `H`, whatever x is; so a body at
`x = W + 1` ends at `x = 0` and a body at `x = -1` ends at `x = W`. The other fields are
unchanged. -/
theorem Wrap_hard_reset (st : Statics) (b : Body α)
    (hW : 0 ≤ st.SCREEN_WIDTH) (hH : 0 ≤ st.SCREEN_HEIGHT) :
    ((st.SCREEN_WIDTH : α) < b.pos.x → (Body.Wrap st b).pos.x = 0)
    ∧ (b.pos.x < 0 → (Body.Wrap st b).pos.x = (st.SCREEN_WIDTH : α))
    ∧ (0 ≤ b.pos.x ∧ b.pos.x ≤ (st.SCREEN_WIDTH : α) → (Body.Wrap st b).pos.x = b.pos.x)
    ∧ ((st.SCREEN_HEIGHT : α) < b.pos.y → (Body.Wrap st b).pos.y = 0)
    ∧ (b.pos.y < 0 → (Body.Wrap st b).pos.y = (st.SCREEN_HEIGHT : α))
    ∧ (0 ≤ b.pos.y ∧ b.pos.y ≤ (st.SCREEN_HEIGHT : α) → (Body.Wrap st b).pos.y = b.pos.y)
    ∧ (b.pos.x = (st.SCREEN_WIDTH : α) + 1 → (Body.Wrap st b).pos.x = 0)
    ∧ (b.pos.x = -1 → (Body.Wrap st b).pos.x = (st.SCREEN_WIDTH : α))
    ∧ (Body.Wrap st b).type = b.type ∧ (Body.Wrap st b).radius = b.radius
    ∧ (Body.Wrap st b).size = b.size ∧ (Body.Wrap st b).velocity = b.velocity := by
  have hW2 : (0 : α) ≤ (st.SCREEN_WIDTH : α) := by exact_mod_cast hW
  have hH2 : (0 : α) ≤ (st.SCREEN_HEIGHT : α) := by exact_mod_cast hH
  have hx : (Body.Wrap st b).pos.x
      = if (st.SCREEN_WIDTH : α) < b.pos.x then 0
        else if b.pos.x < 0 then (st.SCREEN_WIDTH : α) else b.pos.x := by
    unfold Body.Wrap
    simp only [gt_iff_lt]
    split_ifs <;> rfl
  have hy : (Body.Wrap st b).pos.y
      = if (st.SCREEN_HEIGHT : α) < b.pos.y then 0
        else if b.pos.y < 0 then (st.SCREEN_HEIGHT : α) else b.pos.y := by
    unfold Body.Wrap
    simp only [gt_iff_lt]
    split_ifs <;> rfl
  refine ⟨?_, ?_, ?_, ?_, ?_, ?_, ?_, ?_, ?_, ?_, ?_, ?_⟩
  · intro h; rw [hx, if_pos h]
  · intro h; rw [hx, if_neg (by linarith), if_pos h]
  · rintro ⟨h0, h1⟩; rw [hx, if_neg (by linarith), if_neg (by linarith)]
  · intro h; rw [hy, if_pos h]
  · intro h; rw [hy, if_neg (by linarith), if_pos h]
  · rintro ⟨h0, h1⟩; rw [hy, if_neg (by linarith), if_neg (by linarith)]
  · intro h; rw [hx, if_pos (by linarith)]
  · intro h; rw [hx, if_neg (by linarith), if_pos (by linarith)]
  · unfold Body.Wrap; dsimp only; split_ifs <;> rfl
  · unfold Body.Wrap; dsimp only; split_ifs <;> rfl
  · unfold Body.Wrap; dsimp only; split_ifs <;> rfl
  · unfold Body.Wrap; dsimp only; split_ifs <;> rfl

/-- C8, evaluated on a `100 × 100` screen: the body at `(101, -1)` ends at `x = 0` and
`y = 100`. -/
theorem Wrap_hard_reset_witness :
    (Body.Wrap (Body.Initialize 100 100) (Body.newBox (⟨101, -1⟩ : pVector ℚ) ⟨10, 10⟩ 0)).pos.x
        = 0
    ∧ (Body.Wrap (Body.Initialize 100 100)
        (Body.newBox (⟨101, -1⟩ : pVector ℚ) ⟨10, 10⟩ 0)).pos.y
        = ((Body.Initialize 100 100).SCREEN_HEIGHT : ℚ) :=
  ⟨(Wrap_hard_reset (Body.Initialize 100 100)
      (Body.newBox (⟨101, -1⟩ : pVector ℚ) ⟨10, 10⟩ 0) (by decide) (by decide)).1
      (by norm_num [Body.Initialize, Body.newBox]),
   (Wrap_hard_reset (Body.Initialize 100 100)
      (Body.newBox (⟨101, -1⟩ : pVector ℚ) ⟨10, 10⟩ 0) (by decide) (by decide)).2.2.2.2.1
      (by norm_num [Body.newBox])⟩

/-- C9. Over the reals, `NearestPointOnFiniteLine` returns a point of the closed segment
from `start` to `end_`, and no point of that segment is strictly closer to `pnt`. -/
theorem NearestPointOnFiniteLine_nearest (start end_ pnt : pVector ℝ) :
    (∃ s : ℝ, 0 ≤ s ∧ s ≤ 1 ∧
        NearestPointOnFiniteLine Real.sqrt start end_ pnt = start + (end_ - start) * s)
    ∧ (∀ s : ℝ, 0 ≤ s → s ≤ 1 →
        ¬ Distance Real.sqrt pnt (start + (end_ - start) * s)
            < Distance Real.sqrt pnt (NearestPointOnFiniteLine Real.sqrt start end_ pnt)) := by
  by_cases h : (end_ - start).Magnitude Real.sqrt = 0
  · rw [NearestPointOnFiniteLine_degenerate start end_ pnt h]
    have he := Magnitude_sub_eq_zero h
    subst he
    refine ⟨⟨0, le_refl _, zero_le_one, by ext <;> simp⟩, fun s _ _ => ?_⟩
    have : end_ + (end_ - end_) * s = end_ := by ext <;> simp
    rw [this]
    exact lt_irrefl _
  · rw [NearestPointOnFiniteLine_coords start end_ pnt h]
    have hL0 : 0 ≤ (end_ - start).Magnitude Real.sqrt := Magnitude_nonneg _
    have hLpos : 0 < (end_ - start).Magnitude Real.sqrt := lt_of_le_of_ne hL0 (Ne.symm h)
    have hsq := Magnitude_sq (end_ - start)
    simp only [pVector.sub_x, pVector.sub_y] at hsq
    have hu := unit_direction h hsq
    obtain ⟨hd0, hdL⟩ := Clamp_zero_mem
      (Dot (pnt - start) ((end_ - start).Normalized Real.sqrt)) _ hL0
    have ht : Dot (pnt - start) ((end_ - start).Normalized Real.sqrt)
        = (pnt.x - start.x) * ((end_.x - start.x) / (end_ - start).Magnitude Real.sqrt)
          + (pnt.y - start.y) * ((end_.y - start.y) / (end_ - start).Magnitude Real.sqrt) := by
      simp [Dot, pVector.Normalized, h]
    generalize Dot (pnt - start) ((end_ - start).Normalized Real.sqrt) = t at hd0 hdL ht ⊢
    generalize (end_ - start).Magnitude Real.sqrt = L at h hL0 hLpos hsq hu hd0 hdL ht ⊢
    refine ⟨⟨Clamp t 0 L / L, div_nonneg hd0 hL0, (div_le_one hLpos).2 hdL, ?_⟩, ?_⟩
    · ext <;> simp <;> ring
    · intro s hs0 hs1
      rw [not_lt]
      unfold Distance
      apply Real.sqrt_le_sqrt
      simp only [pVector.add_x, pVector.add_y, pVector.sub_x, pVector.sub_y, pVector.scale_x,
        pVector.scale_y]
      have hmin := Clamp_minimises t L (L * s) (mul_nonneg hL0 hs0) (by nlinarith)
      have hlx : end_.x - start.x = (end_.x - start.x) / L * L := by field_simp
      have hly : end_.y - start.y = (end_.y - start.y) / L * L := by field_simp
      generalize (end_.x - start.x) / L = ux at hu ht hlx ⊢
      generalize (end_.y - start.y) / L = uy at hu ht hly ⊢
      rw [hlx, hly]
      have e1 : (pnt.x - (start.x + ux * Clamp t 0 L)) ^ 2
          + (pnt.y - (start.y + uy * Clamp t 0 L)) ^ 2
          = (pnt.x - start.x) ^ 2 + (pnt.y - start.y) ^ 2
            + ((Clamp t 0 L) ^ 2 - 2 * (Clamp t 0 L) * t) := by
        linear_combination (Clamp t 0 L) ^ 2 * hu + 2 * Clamp t 0 L * ht
      have e2 : (pnt.x - (start.x + ux * L * s)) ^ 2 + (pnt.y - (start.y + uy * L * s)) ^ 2
          = (pnt.x - start.x) ^ 2 + (pnt.y - start.y) ^ 2
            + ((L * s) ^ 2 - 2 * (L * s) * t) := by
        linear_combination (L * s) ^ 2 * hu + 2 * (L * s) * ht
      rw [e1, e2]
      linarith

/-- C9, evaluated: the midpoint of the segment from `(0, 0)` to `(10, 0)` is not closer to
`(3, 4)` than the returned point. -/
theorem NearestPointOnFiniteLine_nearest_witness :
    ¬ Distance Real.sqrt ⟨3, 4⟩
          ((⟨0, 0⟩ : pVector ℝ) + ((⟨10, 0⟩ : pVector ℝ) - ⟨0, 0⟩) * (1 / 2 : ℝ))
        < Distance Real.sqrt ⟨3, 4⟩
            (NearestPointOnFiniteLine Real.sqrt ⟨0, 0⟩ ⟨10, 0⟩ ⟨3, 4⟩) :=
  (NearestPointOnFiniteLine_nearest ⟨0, 0⟩ ⟨10, 0⟩ ⟨3, 4⟩).2 (1 / 2) (by norm_num)
    (by norm_num)

/-- C10. Over the reals, for `start ≠ end_`, with `t` the scalar projection of
`pnt - start` onto the unit direction of the segment and `len` its length:
`NearestPointOnFiniteLine` returns `start` when `t ≤ 0`, returns `end_` when `len ≤ t`, and
otherwise returns the perpendicular foot: a point `q` of the line through `start` and
`end_` with `pnt - q` orthogonal to `end_ - start`. -/
theorem NearestPointOnFiniteLine_cases (start end_ pnt : pVector ℝ) (hne : start ≠ end_) :
    (Dot (pnt - start) ((end_ - start).Normalized Real.sqrt) ≤ 0 →
        NearestPointOnFiniteLine Real.sqrt start end_ pnt = start)
    ∧ ((end_ - start).Magnitude Real.sqrt
          ≤ Dot (pnt - start) ((end_ - start).Normalized Real.sqrt) →
        NearestPointOnFiniteLine Real.sqrt start end_ pnt = end_)
    ∧ (0 < Dot (pnt - start) ((end_ - start).Normalized Real.sqrt)
          ∧ Dot (pnt - start) ((end_ - start).Normalized Real.sqrt)
              < (end_ - start).Magnitude Real.sqrt →
        (∃ s : ℝ, NearestPointOnFiniteLine Real.sqrt start end_ pnt
            = start + (end_ - start) * s)
          ∧ Dot (pnt - NearestPointOnFiniteLine Real.sqrt start end_ pnt) (end_ - start)
              = 0) := by
  have h : (end_ - start).Magnitude Real.sqrt ≠ 0 :=
    fun h0 => hne (Magnitude_sub_eq_zero h0).symm
  rw [NearestPointOnFiniteLine_coords start end_ pnt h]
  have hL0 : 0 ≤ (end_ - start).Magnitude Real.sqrt := Magnitude_nonneg _
  have hLpos : 0 < (end_ - start).Magnitude Real.sqrt := lt_of_le_of_ne hL0 (Ne.symm h)
  have hsq := Magnitude_sq (end_ - start)
  simp only [pVector.sub_x, pVector.sub_y] at hsq
  have hu := unit_direction h hsq
  have ht : Dot (pnt - start) ((end_ - start).Normalized Real.sqrt)
      = (pnt.x - start.x) * ((end_.x - start.x) / (end_ - start).Magnitude Real.sqrt)
        + (pnt.y - start.y) * ((end_.y - start.y) / (end_ - start).Magnitude Real.sqrt) := by
    simp [Dot, pVector.Normalized, h]
  generalize Dot (pnt - start) ((end_ - start).Normalized Real.sqrt) = t at ht ⊢
  generalize (end_ - start).Magnitude Real.sqrt = L at h hL0 hLpos hsq hu ht ⊢
  refine ⟨?_, ?_, ?_⟩
  · intro ht0
    have hc : Clamp t 0 L = 0 := by
      unfold Clamp
      split_ifs with h1 h2
      · rfl
      · linarith
      · linarith
    rw [hc]
    ext <;> simp
  · intro htL
    have hc : Clamp t 0 L = L := by
      unfold Clamp
      split_ifs with h1 h2
      · linarith
      · rfl
      · linarith
    rw [hc]
    ext
    · simp only []; field_simp
    · simp only []; field_simp
  · rintro ⟨ht0, htL⟩
    have hc : Clamp t 0 L = t := by
      unfold Clamp
      split_ifs with h1 h2
      · linarith
      · linarith
      · rfl
    rw [hc]
    refine ⟨⟨t / L, by ext <;> simp <;> ring⟩, ?_⟩
    simp only [Dot, pVector.sub_x, pVector.sub_y]
    have hlx : end_.x - start.x = (end_.x - start.x) / L * L := by field_simp
    have hly : end_.y - start.y = (end_.y - start.y) / L * L := by field_simp
    generalize (end_.x - start.x) / L = ux at hu ht hlx ⊢
    generalize (end_.y - start.y) / L = uy at hu ht hly ⊢
    rw [hlx, hly, ht]
    linear_combination
      (-(L * ((pnt.x - start.x) * ux + (pnt.y - start.y) * uy))) * hu

/-- C10, evaluated on the segment from `(0, 0)` to `(10, 0)`: for `(-3, 4)` the result is
`start`, for `(13, 4)` it is `end_`, and for `(3, 4)` the result is the perpendicular
foot. -/
theorem NearestPointOnFiniteLine_cases_witness :
    NearestPointOnFiniteLine Real.sqrt (⟨0, 0⟩ : pVector ℝ) ⟨10, 0⟩ ⟨-3, 4⟩ = ⟨0, 0⟩
    ∧ NearestPointOnFiniteLine Real.sqrt (⟨0, 0⟩ : pVector ℝ) ⟨10, 0⟩ ⟨13, 4⟩ = ⟨10, 0⟩
    ∧ Dot ((⟨3, 4⟩ : pVector ℝ) - NearestPointOnFiniteLine Real.sqrt ⟨0, 0⟩ ⟨10, 0⟩ ⟨3, 4⟩)
        ((⟨10, 0⟩ : pVector ℝ) - ⟨0, 0⟩) = 0 :=
  ⟨(NearestPointOnFiniteLine_cases ⟨0, 0⟩ ⟨10, 0⟩ ⟨-3, 4⟩
      (by intro h; have := congrArg pVector.x h; norm_num at this)).1
      (by norm_num [Dot, pVector.Normalized, pVector.Magnitude, sqrt_hundred]),
   (NearestPointOnFiniteLine_cases ⟨0, 0⟩ ⟨10, 0⟩ ⟨13, 4⟩
      (by intro h; have := congrArg pVector.x h; norm_num at this)).2.1
      (by norm_num [Dot, pVector.Normalized, pVector.Magnitude, sqrt_hundred]),
   ((NearestPointOnFiniteLine_cases ⟨0, 0⟩ ⟨10, 0⟩ ⟨3, 4⟩
      (by intro h; have := congrArg pVector.x h; norm_num at this)).2.2
      (by norm_num [Dot, pVector.Normalized, pVector.Magnitude, sqrt_hundred])).2⟩

/-- C11. For `min ≤ max`, `Clamp(val, min, max)` returns `val` unchanged when
`min ≤ val ≤ max`, returns `min` when `val < min` and `max` when `val > max`; hence the
result always lies in `[min, max]`. -/
theorem Clamp_spec (val min max : α) (h : min ≤ max) :
    (min ≤ val ∧ val ≤ max → Clamp val min max = val)
    ∧ (val < min → Clamp val min max = min)
    ∧ (max < val → Clamp val min max = max)
    ∧ (min ≤ Clamp val min max ∧ Clamp val min max ≤ max) := by
  unfold Clamp
  refine ⟨?_, ?_, ?_, ?_⟩
  · rintro ⟨h1, h2⟩
    rw [if_neg (not_lt.2 h1), if_neg (not_lt.2 h2)]
  · intro h1
    rw [if_pos h1]
  · intro h1
    rw [if_neg (not_lt.2 (le_trans h (le_of_lt h1))), if_pos h1]
  · split_ifs with h1 h2
    · exact ⟨le_refl _, h⟩
    · exact ⟨h, le_refl _⟩
    · exact ⟨not_lt.1 h1, not_lt.1 h2⟩

/-- C11, evaluated with `min = 0` and `max = 10` at `5`, `-3` and `12`. -/
theorem Clamp_spec_witness :
    Clamp (5 : ℚ) 0 10 = 5 ∧ Clamp (-3 : ℚ) 0 10 = 0 ∧ Clamp (12 : ℚ) 0 10 = 10 :=
  ⟨(Clamp_spec (5 : ℚ) 0 10 (by norm_num)).1 (by norm_num),
   (Clamp_spec (-3 : ℚ) 0 10 (by norm_num)).2.1 (by norm_num),
   (Clamp_spec (12 : ℚ) 0 10 (by norm_num)).2.2.1 (by norm_num)⟩

/-- C12. Over the reals: if `v` is not the zero vector then `v.Normalized().Magnitude()` is
`1`; if `v` is the zero vector then `v.Normalized()` is the zero vector; the in-place
`Normalize` leaves `v` equal to `v.Normalized()` in both cases, and is a no-op on the zero
vector. -/
theorem Normalized_spec (v : pVector ℝ) :
    (v ≠ pVector.zero → (v.Normalized Real.sqrt).Magnitude Real.sqrt = 1)
    ∧ (v = pVector.zero → v.Normalized Real.sqrt = pVector.zero)
    ∧ v.Normalize Real.sqrt = v.Normalized Real.sqrt
    ∧ (v = pVector.zero → v.Normalize Real.sqrt = v) := by
  have hzero : v.Magnitude Real.sqrt = 0 → v = pVector.zero := by
    intro h
    have e : (v - pVector.zero : pVector ℝ) = v := by ext <;> simp [pVector.zero]
    have h0 : (v - pVector.zero).Magnitude Real.sqrt = 0 := by rw [e]; exact h
    exact Magnitude_sub_eq_zero h0
  refine ⟨?_, ?_, ?_, ?_⟩
  · intro hv
    have hm : v.Magnitude Real.sqrt ≠ 0 := fun h => hv (hzero h)
    have hsq := Magnitude_sq v
    have hu := unit_direction hm hsq
    unfold pVector.Normalized
    simp only [hm, if_false]
    unfold pVector.Magnitude at hu ⊢
    simp only []
    rw [hu, Real.sqrt_one]
  · intro hv
    subst hv
    simp [pVector.Normalized, pVector.Magnitude, pVector.zero]
  · unfold pVector.Normalize pVector.Normalized
    by_cases hm : v.Magnitude Real.sqrt = 0
    · simp only [hm, if_true]
      exact hzero hm
    · simp only [hm, if_false]
  · intro hv
    subst hv
    simp [pVector.Normalize, pVector.Magnitude, pVector.zero]

/-- C12, evaluated: the normalised `(3, 4)` has magnitude `1`. -/
theorem Normalized_spec_witness :
    ((⟨3, 4⟩ : pVector ℝ).Normalized Real.sqrt).Magnitude Real.sqrt = 1 :=
  (Normalized_spec ⟨3, 4⟩).1
    (by intro h; have := congrArg pVector.x h; norm_num [pVector.zero] at this)

/-- C14. Over the reals, `Distance(v, v) = 0` and
`SquaredDistance(a, b) = Distance(a, b) ^ 2`. -/
theorem Distance_self_and_sq (v a b : pVector ℝ) :
    Distance Real.sqrt v v = 0
    ∧ SquaredDistance a b = Distance Real.sqrt a b ^ 2 := by
  refine ⟨?_, ?_⟩
  · simp [Distance]
  · unfold Distance SquaredDistance
    rw [Real.sq_sqrt (add_nonneg (sq_nonneg _) (sq_nonneg _))]

/-- C17. Over the reals, for a box of non-negative size and a circle of positive radius `r`
(whose `size` is the `(2r, 2r)` set by the circle constructor): the point
`Spec.NearestPointOfRect` lies in the closed rectangle of the box, no point of the
rectangle is closer to the centre of the circle, and `box.CircleCollidesBox(circle)` is
true if and only if the distance from the centre to that nearest point is strictly less
than `r`. -/
theorem CircleCollidesBox_iff_geometric (box circle : Body ℝ)
    (hw : 0 ≤ box.size.x) (hh : 0 ≤ box.size.y) (hr : 0 < circle.radius)
    (hsize : circle.size = ⟨circle.radius * 2, circle.radius * 2⟩) :
    Spec.InRect box (Spec.NearestPointOfRect box circle.pos)
    ∧ (∀ q : pVector ℝ, Spec.InRect box q →
        Distance Real.sqrt (Spec.NearestPointOfRect box circle.pos) circle.pos
          ≤ Distance Real.sqrt q circle.pos)
    ∧ (box.CircleCollidesBox circle = true ↔
        Distance Real.sqrt (Spec.NearestPointOfRect box circle.pos) circle.pos
          < circle.radius) := by
  refine ⟨?_, ?_, ?_⟩
  · exact ⟨nearest1_mem _ _ _ hw, nearest1_mem _ _ _ hh⟩
  · rintro q ⟨⟨h1, h2⟩, h3, h4⟩
    unfold Distance
    apply Real.sqrt_le_sqrt
    have e1 := nearest1_le box.pos.x box.size.x circle.pos.x q.x hw h1 h2
    have e2 := nearest1_le box.pos.y box.size.y circle.pos.y q.y hh h3 h4
    simp only [Spec.NearestPointOfRect]
    linarith
  · rw [Body.CircleCollidesBox_iff_nearest box circle hw hh hr hsize]
    unfold Distance
    rw [Real.sqrt_lt' hr, sq circle.radius]
    rfl

/-- C17, evaluated on the box at `(0, 0)` of size `(10, 10)` and the circle of radius `1`
at `(13, 14)`. -/
theorem CircleCollidesBox_iff_geometric_witness :
    (Body.newBox (⟨0, 0⟩ : pVector ℝ) ⟨10, 10⟩ 0).CircleCollidesBox
        (Body.newCircle ⟨13, 14⟩ 1) = true
      ↔ Distance Real.sqrt
          (Spec.NearestPointOfRect (Body.newBox (⟨0, 0⟩ : pVector ℝ) ⟨10, 10⟩ 0)
            (Body.newCircle (⟨13, 14⟩ : pVector ℝ) 1).pos)
          (Body.newCircle (⟨13, 14⟩ : pVector ℝ) 1).pos
        < (Body.newCircle (⟨13, 14⟩ : pVector ℝ) 1).radius :=
  (CircleCollidesBox_iff_geometric (Body.newBox (⟨0, 0⟩ : pVector ℝ) ⟨10, 10⟩ 0)
    (Body.newCircle ⟨13, 14⟩ 1) (by norm_num [Body.newBox]) (by norm_num [Body.newBox])
    (by norm_num [Body.newCircle]) (by norm_num [Body.newCircle])).2.2

/-- C18. `Move` preserves collision-freeness: if before the call the body at `self`
collides (per `CheckCollision`) with no element of `L` other than itself, then after
`Move(m, L)` it still collides with no element of `L` other than itself. -/
theorem Move_preserves_collision_free (sqrtf : α → α) (mem : Memory α) (self : Nat)
    (m : pVector α) (L : List Nat)
    (h : ∀ o ∈ L, o ≠ self → (mem self).CheckCollision sqrtf (mem o) = false) :
    ∀ o ∈ L, o ≠ self →
      (Body.Move sqrtf mem self m L self).CheckCollision sqrtf
        (Body.Move sqrtf mem self m L o) = false := by
  by_cases hc : ∃ o ∈ L, o ≠ self ∧
      ((mem.setPos self ((mem self).pos + m)) self).CheckCollision sqrtf
        ((mem.setPos self ((mem self).pos + m)) o) = true
  · have key : Body.Move sqrtf mem self m L = mem := by
      unfold Body.Move
      rw [Body.MoveLoop_collision sqrtf self _ _ L hc]
      exact Memory.setPos_setPos_orig mem self _
    rw [key]
    exact h
  · have hno : ∀ o ∈ L, o ≠ self →
        ((mem.setPos self ((mem self).pos + m)) self).CheckCollision sqrtf
          ((mem.setPos self ((mem self).pos + m)) o) = false := by
      intro o ho hne
      rw [← Bool.not_eq_true]
      exact fun hco => hc ⟨o, ho, hne, hco⟩
    have key : Body.Move sqrtf mem self m L = mem.setPos self ((mem self).pos + m) := by
      unfold Body.Move
      exact Body.MoveLoop_no_collision sqrtf self _ _ L hno
    rw [key]
    exact hno

/-- C18, evaluated on `sceneTwoBoxes` with the displacement `(4, 0)`: after the move the box at
address `0` does not collide with the box at address `1`. -/
theorem Move_preserves_collision_free_witness :
    (Body.Move (fun v => v) sceneTwoBoxes 0 ⟨4, 0⟩ [0, 1] 0).CheckCollision (fun v => v)
      (Body.Move (fun v => v) sceneTwoBoxes 0 ⟨4, 0⟩ [0, 1] 1) = false :=
  Move_preserves_collision_free (fun v => v) sceneTwoBoxes 0 ⟨4, 0⟩ [0, 1]
    (by
      intro o ho hne
      have : o = 1 := by simpa [hne] using ho
      subst this
      norm_num [sceneTwoBoxes, Body.CheckCollision, Body.BoxCollidesBox, Body.newBox,
        (by decide : BodyType.Box ≠ BodyType.Circle)])
    1 (by simp) (by decide)

/-- C19. `CheckCollision` is symmetric on initialised shapes: for two bodies whose types
are each `Box` or `Circle`, `a.CheckCollision(b) = b.CheckCollision(a)`. -/
theorem CheckCollision_symm (sqrtf : α → α) (a b : Body α)
    (ha : a.type = BodyType.Box ∨ a.type = BodyType.Circle)
    (hb : b.type = BodyType.Box ∨ b.type = BodyType.Circle) :
    a.CheckCollision sqrtf b = b.CheckCollision sqrtf a := by
  have hbox : a.BoxCollidesBox b = b.BoxCollidesBox a := by
    rw [Bool.eq_iff_iff, Body.BoxCollidesBox_eq_true_iff, Body.BoxCollidesBox_eq_true_iff]
    tauto
  have hcirc : a.CircleCollidesCircle sqrtf b = b.CircleCollidesCircle sqrtf a := by
    unfold Body.CircleCollidesCircle
    rw [Distance_comm sqrtf a.pos b.pos, add_comm a.radius b.radius]
  rcases ha with ha | ha <;> rcases hb with hb | hb
  · simp [Body.CheckCollision, ha, hb, hbox]
  · simp [Body.CheckCollision, ha, hb]
  · simp [Body.CheckCollision, ha, hb]
  · simp [Body.CheckCollision, ha, hb, hcirc]

/-- C19, evaluated on a box and a circle. -/
theorem CheckCollision_symm_witness :
    (Body.newBox (⟨0, 0⟩ : pVector ℚ) ⟨10, 10⟩ 0).CheckCollision (fun v => v)
        (Body.newCircle ⟨10, 10⟩ 1)
      = (Body.newCircle (⟨10, 10⟩ : pVector ℚ) 1).CheckCollision (fun v => v)
          (Body.newBox ⟨0, 0⟩ ⟨10, 10⟩ 0) :=
  CheckCollision_symm (fun v => v) (Body.newBox (⟨0, 0⟩ : pVector ℚ) ⟨10, 10⟩ 0)
    (Body.newCircle ⟨10, 10⟩ 1) (Or.inl rfl) (Or.inr rfl)

/-- C20. `AutoMoveAndWrap` does not preserve collision-freeness. On a `100 × 100` screen,
in `sceneWrapOntoBox` with the list `[0, 1]`: before the call the box at address `0` (at
`(99, 50)`, velocity `(2, 0)`) does not collide with the only other element, the box at
`(0, 50)`; after `AutoMoveAndWrap` it is at `(0, 50)` and collides with it. -/
theorem AutoMoveAndWrap_breaks_collision_free :
    (1 : Nat) ∈ [0, 1] ∧ (1 : Nat) ≠ 0
    ∧ (sceneWrapOntoBox 0).CheckCollision (fun v => v) (sceneWrapOntoBox 1) = false
    ∧ (Body.AutoMoveAndWrap (fun v => v) (Body.Initialize 100 100) sceneWrapOntoBox 0
          [0, 1] 0).pos = ⟨0, 50⟩
    ∧ (Body.AutoMoveAndWrap (fun v => v) (Body.Initialize 100 100) sceneWrapOntoBox 0
          [0, 1] 0).CheckCollision (fun v => v)
        (Body.AutoMoveAndWrap (fun v => v) (Body.Initialize 100 100) sceneWrapOntoBox 0
          [0, 1] 1) = true := by
  have hmove : Body.Move (fun v => v) sceneWrapOntoBox 0 (sceneWrapOntoBox 0).velocity [0, 1]
      = sceneWrapOntoBox.setPos 0 ⟨101, 50⟩ := by
    have e : (sceneWrapOntoBox 0).pos + (sceneWrapOntoBox 0).velocity
        = (⟨101, 50⟩ : pVector ℚ) := by
      ext <;> norm_num [sceneWrapOntoBox, Body.newBox]
    unfold Body.Move
    simp only [e]
    apply Body.MoveLoop_no_collision
    intro o ho hne
    have : o = 1 := by simpa [hne] using ho
    subst this
    norm_num [sceneWrapOntoBox, Memory.setPos, Body.CheckCollision, Body.BoxCollidesBox,
      Body.newBox, (by decide : BodyType.Box ≠ BodyType.Circle)]
  have hauto : Body.AutoMoveAndWrap (fun v => v) (Body.Initialize 100 100) sceneWrapOntoBox 0
      [0, 1]
      = (sceneWrapOntoBox.setPos 0 ⟨101, 50⟩).store 0
          (Body.Wrap (Body.Initialize 100 100) (sceneWrapOntoBox.setPos 0 ⟨101, 50⟩ 0)) := by
    unfold Body.AutoMoveAndWrap
    simp only [Body.Initialize, Bool.false_eq_true, if_false]
    rw [hmove]
  refine ⟨by simp, by decide, ?_, ?_, ?_⟩
  · norm_num [sceneWrapOntoBox, Body.CheckCollision, Body.BoxCollidesBox, Body.newBox,
      (by decide : BodyType.Box ≠ BodyType.Circle)]
  · rw [hauto]
    ext <;> norm_num [Memory.store, Memory.setPos, Body.Wrap, Body.Initialize,
      sceneWrapOntoBox, Body.newBox]
  · rw [hauto]
    norm_num [Memory.store, Memory.setPos, Body.Wrap, Body.Initialize,
      sceneWrapOntoBox, Body.newBox, Body.CheckCollision, Body.BoxCollidesBox,
      (by decide : BodyType.Box ≠ BodyType.Circle)]

end Claims

end Physics
